import Mathlib

/-!
# E-commerce API (`src/app.js`): shallow embedding and verified properties

The Express application of `src/app.js` is embedded as a state machine.

* The state is the three module-level collections `products`, `orders`
  and `idempotencyKeys`.
* A request is one of the four API routes together with the two headers the
  handlers read (`Authorization`, `Idempotency-Key`) and the parsed JSON body.
* The environment of a request supplies what the handlers take from outside:
  the clock read by token verification and the value returned by `uuid()`.

Scope. The middleware registered before the routes (`express.json`, `cors`,
`helmet`, `morgan`, the rate limiter) is not part of the embedding: a request
of the model is a request that reached the route table with its body parsed
into an object. The swagger route does not touch the state and is left out.

JavaScript semantics. Values are the JSON values plus `undefined`. Truthiness
and the comparison `x <= 0` follow ECMAScript; the two conversions that would
need a full string/number printer and reader (`StringToNumber`, and
`ToPrimitive` of an array or object) are fields of `Runtime`.
-/

namespace EcomApi

/-! ## JavaScript values -/

/-- A JavaScript number, as far as comparison with zero and truthiness can
distinguish: `NaN`, the two infinities, or a finite value (the exact rational
value of the double; `-0` and `+0` are both `finite 0`). -/
inductive JSNum where
  | nan
  | inf (negative : Bool)
  | finite (q : ℚ)

/-- The test `n <= 0` on numbers: false for `NaN`. -/
def JSNum.leZero : JSNum → Bool
  | .nan => false
  | .inf negative => negative
  | .finite q => decide (q ≤ 0)

/-- ToBoolean on numbers: `0` and `NaN` are falsy. -/
def JSNum.truthy : JSNum → Bool
  | .nan => false
  | .inf _ => true
  | .finite q => decide (q ≠ 0)

/-- A number is an integer value (`Number.isInteger`). -/
def JSNum.isInteger : JSNum → Bool
  | .finite q => decide (q.den = 1)
  | _ => false

/-- A JavaScript value that can occur in a parsed JSON body or in a decoded
token payload, plus `undefined` for an absent property. -/
inductive JSValue where
  | undefined
  | null
  | bool (b : Bool)
  | number (n : JSNum)
  | string (s : String)
  | array (elems : List JSValue)
  | object (props : List (String × JSValue))

/-- A parsed object: its own properties. -/
abbrev JSObject := List (String × JSValue)

/-- Property read `o.k` (and destructuring `const { k } = o`): `undefined`
when the property is absent. -/
def JSObject.get (o : JSObject) (k : String) : JSValue :=
  match o.lookup k with
  | some v => v
  | none => .undefined

/-- ToBoolean: the falsy values are `undefined`, `null`, `false`, `0`, `NaN`
and the empty string. -/
def truthy : JSValue → Bool
  | .undefined => false
  | .null => false
  | .bool b => b
  | .number n => n.truthy
  | .string s => decide (s ≠ "")
  | .array _ => true
  | .object _ => true

/-- Strict equality `s === v` against a string `s`. -/
def strictEqString (s : String) : JSValue → Bool
  | .string t => decide (s = t)
  | _ => false

/-- ToNumber, given the two platform conversions; `none` when it throws. -/
def toNumber (stringToNumber : String → JSNum) (objectToNumber : JSValue → Option JSNum) :
    JSValue → Option JSNum
  | .undefined => some .nan
  | .null => some (.finite 0)
  | .bool b => some (.finite (if b then 1 else 0))
  | .number n => some n
  | .string s => some (stringToNumber s)
  | .array elems => objectToNumber (.array elems)
  | .object props => objectToNumber (.object props)

/-- Split of a string at every space, as `String.prototype.split(" ")` does:
consecutive spaces give empty parts, and the empty string gives one empty part. -/
def splitOnSpace : List Char → List (List Char)
  | [] => [[]]
  | c :: cs =>
    if c = ' ' then [] :: splitOnSpace cs
    else
      match splitOnSpace cs with
      | [] => [[c]]
      | w :: ws => (c :: w) :: ws

/-- The expression `header.split(" ")[1]`: `none` stands for `undefined`. -/
def secondPart (header : String) : Option String :=
  ((splitOnSpace header.data)[1]?).map String.mk

/-! ## Token service -/

/-- The content of a signed token: the claims given to `jwt.sign`, the time of
issue, the expiry, and the key under which its signature verifies. -/
structure TokenData where
  claims : JSObject
  iat : Nat
  exp : Nat
  key : String

/-- What the embedding takes from the platform. -/
structure Runtime where
  /-- ECMAScript `StringToNumber`. -/
  stringToNumber : String → JSNum
  /-- ToNumber of an array or object (`ToPrimitive` with hint number, then
  ToNumber); `none` when the conversion throws a `TypeError`. -/
  objectToNumber : JSValue → Option JSNum
  /-- Serialisation of a token to its wire form. -/
  encode : TokenData → String
  /-- Parsing of a wire token; `none` when it is malformed. -/
  decode : String → Option TokenData

/-- The comparison `v <= 0`: `none` when the conversion of `v` throws. -/
def leZero (R : Runtime) (v : JSValue) : Option Bool :=
  (toNumber R.stringToNumber R.objectToNumber v).map JSNum.leZero

/-- Modelled from the spec: `jwt.sign(payload, secret, { expiresIn })` of the
`jsonwebtoken` package, which is not under `src/`. Spec 4.1: the token embeds
the payload and an expiry `expiresIn` seconds from issuance, signed with the
secret. -/
def jwtSign (R : Runtime) (payload : JSObject) (secret : String) (expiresIn now : Nat) : String :=
  R.encode { claims := payload, iat := now, exp := now + expiresIn, key := secret }

/-- Modelled from the spec: `jwt.verify(token, secret)` of the `jsonwebtoken`
package, which is not under `src/`. Spec 4.1: verification fails when the
payload is malformed, when the signature does not match, or when the current
time is past expiry; otherwise it yields the payload. `none` stands for the
exception the package throws. -/
def jwtVerify (R : Runtime) (token secret : String) (now : Nat) : Option JSObject :=
  match R.decode token with
  | none => none
  | some d =>
    if d.key ≠ secret then none
    else if d.exp < now then none
    else some d.claims

/-! ## Data model -/

/-- A seeded user record. -/
structure User where
  id : Nat
  email : String
  password : String
  role : String

/-- A product as stored by `products.push`. -/
structure Product where
  id : String
  name : JSValue
  price : JSValue

/-- An order as stored by `orders.push`. -/
structure Order where
  id : String
  userId : JSValue
  productId : JSValue
  quantity : JSValue
  status : String

/-- The mutable module-level collections. `idempotencyKeys` is the `Set`, kept
as the list of its elements in insertion order. -/
structure State where
  products : List Product
  orders : List Order
  idempotencyKeys : List String

/-- The state at process start. -/
def State.init : State := { products := [], orders := [], idempotencyKeys := [] }

/-- The method `Set.prototype.add`. -/
def setAdd (keys : List String) (k : String) : List String :=
  if k ∈ keys then keys else keys ++ [k]

def JWT_SECRET : String := "supersecret"

def users : List User :=
  [ { id := 1, email := "admin@test.com", password := "1234", role := "admin" },
    { id := 2, email := "user@test.com", password := "1234", role := "user" } ]

/-! ## Requests and responses -/

/-- The four API routes. -/
inductive Route where
  | login
  | listProducts
  | createProduct
  | placeOrder
  deriving DecidableEq

/-- A request as the handlers see it. -/
structure Request where
  route : Route
  /-- The header `req.headers.authorization`. -/
  authorization : Option String
  /-- The header `req.headers["idempotency-key"]`. -/
  idempotencyKey : Option String
  /-- The parsed `req.body`. -/
  body : JSObject

/-- What a request takes from outside the program. -/
structure Env where
  /-- The clock, in seconds. -/
  now : Nat
  /-- The value the next call of `uuid()` returns. -/
  uuid : String

/-- The argument of `res.json`. -/
inductive ResBody where
  | message (m : String)
  | token (t : String)
  | products (ps : List Product)
  | product (p : Product)
  | order (o : Order)

structure Response where
  status : Nat
  body : ResBody

/-! ## Middleware and handlers -/

/-- The middleware `authenticate`: the verified payload stored in `req.user`,
or the 401 response. -/
def authenticate (R : Runtime) (now : Nat) (authorization : Option String) :
    Except Response JSObject :=
  match authorization.bind secondPart with
  | none => .error ⟨401, .message "No token"⟩
  | some token =>
    if token = "" then .error ⟨401, .message "No token"⟩
    else
      match jwtVerify R token JWT_SECRET now with
      | some user => .ok user
      | none => .error ⟨401, .message "Invalid token"⟩

/-- The test `roles.includes(req.user.role)` of `authorize(roles)`; when it is
false the middleware answers 403. -/
def authorize (roles : List String) (user : JSObject) : Bool :=
  match user.get "role" with
  | .string r => decide (r ∈ roles)
  | _ => false

/-- The payload `{ id: user.id, role: user.role }` that login signs. -/
def tokenPayload (u : User) : JSObject :=
  [("id", .number (.finite u.id)), ("role", .string u.role)]

/-- The test `u.email === email && u.password === password` of the lookup. -/
def credentialsMatch (email password : JSValue) (u : User) : Bool :=
  strictEqString u.email email && strictEqString u.password password

/-- The handler of `POST /api/v1/auth/login`. -/
def login (R : Runtime) (now : Nat) (body : JSObject) : Response :=
  let email := body.get "email"
  let password := body.get "password"
  if !truthy email || !truthy password then ⟨400, .message "Invalid input"⟩
  else
    match users.find? (credentialsMatch email password) with
    | none => ⟨401, .message "Login failed"⟩
    | some user => ⟨200, .token (jwtSign R (tokenPayload user) JWT_SECRET 3600 now)⟩

/-- The route handler of `POST /api/v1/products`, after the two guards. -/
def createProduct (R : Runtime) (s : State) (uuid : String) (body : JSObject) :
    Response × State :=
  let name := body.get "name"
  let price := body.get "price"
  if !truthy name then (⟨400, .message "Invalid product"⟩, s)
  else
    match leZero R price with
    | none => (⟨500, .message "Internal Server Error"⟩, s)
    | some true => (⟨400, .message "Invalid product"⟩, s)
    | some false =>
      let product : Product := { id := uuid, name := name, price := price }
      (⟨201, .product product⟩, { s with products := s.products ++ [product] })

/-- The route handler of `POST /api/v1/orders`, after the two guards; `user`
is `req.user`. -/
def placeOrder (R : Runtime) (s : State) (uuid : String) (user : JSObject)
    (idempotencyKey : Option String) (body : JSObject) : Response × State :=
  match idempotencyKey with
  | none => (⟨400, .message "Missing Idempotency-Key"⟩, s)
  | some key =>
    if key = "" then (⟨400, .message "Missing Idempotency-Key"⟩, s)
    else if key ∈ s.idempotencyKeys then (⟨409, .message "Duplicate request"⟩, s)
    else
      let productId := body.get "productId"
      let quantity := body.get "quantity"
      if !truthy productId then (⟨400, .message "Invalid order"⟩, s)
      else
        match leZero R quantity with
        | none => (⟨500, .message "Internal Server Error"⟩, s)
        | some true => (⟨400, .message "Invalid order"⟩, s)
        | some false =>
          let order : Order :=
            { id := uuid, userId := user.get "id", productId := productId,
              quantity := quantity, status := "PAID" }
          (⟨201, .order order⟩,
            { s with idempotencyKeys := setAdd s.idempotencyKeys key,
                     orders := s.orders ++ [order] })

/-- A guarded route: `authenticate`, then `authorize(roles)`, then the handler. -/
def guarded (R : Runtime) (s : State) (now : Nat) (authorization : Option String)
    (roles : List String) (handler : JSObject → Response × State) : Response × State :=
  match authenticate R now authorization with
  | .error res => (res, s)
  | .ok user =>
    if authorize roles user then handler user
    else (⟨403, .message "Forbidden"⟩, s)

/-- One request through the route table. -/
def step (R : Runtime) (s : State) (env : Env) (req : Request) : Response × State :=
  match req.route with
  | .login => (login R env.now req.body, s)
  | .listProducts => (⟨200, .products s.products⟩, s)
  | .createProduct =>
    guarded R s env.now req.authorization ["admin"]
      (fun _ => createProduct R s env.uuid req.body)
  | .placeOrder =>
    guarded R s env.now req.authorization ["user"]
      (fun user => placeOrder R s env.uuid user req.idempotencyKey req.body)

/-- The state after a sequence of requests. -/
def run (R : Runtime) (s : State) : List (Env × Request) → State
  | [] => s
  | (env, req) :: rest => run R (step R s env req).2 rest

/-- The responses to a sequence of requests, in order. -/
def responses (R : Runtime) (s : State) : List (Env × Request) → List Response
  | [] => []
  | (env, req) :: rest => (step R s env req).1 :: responses R (step R s env req).2 rest

/-- The caller of the request is authenticated with role `role`: `authenticate`
stores a payload whose `role` is that string. -/
def authenticatedAs (R : Runtime) (env : Env) (req : Request) (role : String) : Prop :=
  ∃ user, authenticate R env.now req.authorization = .ok user ∧ user.get "role" = .string role

/-- The token of a request fails verification: it is malformed, its signature
is not under `JWT_SECRET`, or it has expired. -/
def failsVerification (R : Runtime) (now : Nat) (token : String) : Prop :=
  R.decode token = none ∨
    ∃ d, R.decode token = some d ∧ (d.key ≠ JWT_SECRET ∨ d.exp < now)

/-- The request is a `POST /orders` carrying the idempotency key `k`. -/
def carriesKey (k : String) (req : Request) : Prop :=
  req.route = .placeOrder ∧ req.idempotencyKey = some k

instance (k : String) (req : Request) : Decidable (carriesKey k req) := by
  unfold carriesKey; exact inferInstance

/-- How many requests of the sequence are `POST /orders` requests carrying `k`
that are answered 201, when the sequence runs from state `s`. -/
def createdWithKey (R : Runtime) (k : String) : State → List (Env × Request) → Nat
  | _, [] => 0
  | s, (env, req) :: rest =>
    (if carriesKey k req ∧ (step R s env req).1.status = 201 then 1 else 0)
      + createdWithKey R k (step R s env req).2 rest

/-- The product that a successful `POST /products` builds from its request. -/
def productOf (x : Env × Request) : Product :=
  { id := x.1.uuid, name := x.2.body.get "name", price := x.2.body.get "price" }

/-- The sub-sequence of the `POST /products` requests that are answered 201,
when the sequence runs from state `s`. -/
def successfulCreates (R : Runtime) : State → List (Env × Request) → List (Env × Request)
  | _, [] => []
  | s, (env, req) :: rest =>
    (if req.route = .createProduct ∧ (step R s env req).1.status = 201 then [(env, req)] else [])
      ++ successfulCreates R (step R s env req).2 rest

/-! ## A runtime for the worked examples -/

/-- The numeric id in a payload, for the example wire form. -/
def exampleId : JSValue → Nat
  | .number (.finite q) => q.num.toNat
  | _ => 0

/-- Wire form of the example tokens: a role letter (`A` for admin, `U`
otherwise), a key letter (`s` for a signature under `JWT_SECRET`), then one
`n` per unit of the id and one `i` per second of the issue time. -/
def exampleEncode (d : TokenData) : String :=
  String.mk ((if authorize ["admin"] d.claims then 'A' else 'U')
    :: (if d.key = JWT_SECRET then 's' else 'x')
    :: (List.replicate (exampleId (d.claims.get "id")) 'n' ++ List.replicate d.iat 'i'))

/-- Reader of the example wire form; every example token lives one hour. -/
def exampleDecode (t : String) : Option TokenData :=
  match t.data with
  | r :: k :: rest =>
    some { claims := [("id", .number (.finite (rest.count 'n'))),
                      ("role", .string (if r = 'A' then "admin" else "user"))],
           iat := rest.count 'i',
           exp := rest.count 'i' + 3600,
           key := if k = 's' then JWT_SECRET else "other" }
  | _ => none

/-- ToNumber of an object in the worked examples. A parsed JSON object with an
own `toString` property has no primitive value (no JSON value is callable, and
the inherited `valueOf` returns the object), so the conversion throws; any
other parsed object prints as `[object Object]`, which is `NaN`. No example
converts an array. -/
def exampleObjectToNumber : JSValue → Option JSNum
  | .object props => if (props.lookup "toString").isSome then none else some .nan
  | _ => some .nan

/-- The runtime of the worked examples. Its token codec is the example wire
form above. No example converts a string to a number, so that conversion is
fixed to `NaN`. -/
def exampleRuntime : Runtime :=
  { stringToNumber := fun _ => .nan,
    objectToNumber := exampleObjectToNumber,
    encode := exampleEncode,
    decode := exampleDecode }

/-! ## Worked requests -/

/-- The header of a caller holding a token of role user, id 2, issued at time 0. -/
def userBearer : Option String := some "Bearer Usnn"

/-- The header of a caller holding a token of role admin, id 1, issued at time 0. -/
def adminBearer : Option String := some "Bearer Asn"

/-- A moment within the life of the example tokens. -/
def env0 : Env := { now := 10, uuid := "id-0" }

/-- An order request without the `Idempotency-Key` header. -/
def orderNoKey : Request :=
  { route := .placeOrder, authorization := userBearer, idempotencyKey := none,
    body := [("productId", .string "p1"), ("quantity", .number (.finite 2))] }

/-- A product request carrying the token of a role-user caller. -/
def productByUser : Request :=
  { route := .createProduct, authorization := userBearer, idempotencyKey := none,
    body := [("name", .string "Widget"), ("price", .number (.finite 10))] }

/-- An order request carrying no `Authorization` header. -/
def orderNoAuth : Request :=
  { route := .placeOrder, authorization := none, idempotencyKey := some "k1",
    body := [("productId", .string "p1"), ("quantity", .number (.finite 2))] }

/-- The header of a second role-user caller, id 3, token issued at time 0. -/
def otherUserBearer : Option String := some "Bearer Usnnn"

/-- A later moment, still within the life of the example tokens. -/
def env1 : Env := { now := 20, uuid := "id-1" }

/-- A valid order of user 2 under key `k1`. -/
def orderK1 : Request :=
  { route := .placeOrder, authorization := userBearer, idempotencyKey := some "k1",
    body := [("productId", .string "p1"), ("quantity", .number (.finite 2))] }

/-- Another valid order under the same key `k1`, from user 3 and with another body. -/
def orderK1Other : Request :=
  { route := .placeOrder, authorization := otherUserBearer, idempotencyKey := some "k1",
    body := [("productId", .string "p2"), ("quantity", .number (.finite 5))] }

/-- An order under key `k1` that lacks its `productId`. -/
def orderMalformedK1 : Request :=
  { route := .placeOrder, authorization := userBearer, idempotencyKey := some "k1",
    body := [("quantity", .number (.finite 2))] }

/-- A valid order of user 2 whose body also names another owner. -/
def orderWithUserId : Request :=
  { route := .placeOrder, authorization := userBearer, idempotencyKey := some "k2",
    body := [("userId", .number (.finite 99)), ("productId", .string "p1"),
             ("quantity", .number (.finite 1))] }

/-- A product request of the admin without a `price`. -/
def productNoPrice : Request :=
  { route := .createProduct, authorization := adminBearer, idempotencyKey := none,
    body := [("name", .string "Widget")] }

/-- A product request of the admin with a negative price. -/
def productNegative : Request :=
  { route := .createProduct, authorization := adminBearer, idempotencyKey := none,
    body := [("name", .string "Widget"), ("price", .number (.finite (-5)))] }

/-- A valid product request of the admin. -/
def productWidget : Request :=
  { route := .createProduct, authorization := adminBearer, idempotencyKey := none,
    body := [("name", .string "Widget"), ("price", .number (.finite 10))] }

/-- An order under key `k3` without a `quantity`. -/
def orderNoQuantity : Request :=
  { route := .placeOrder, authorization := userBearer, idempotencyKey := some "k3",
    body := [("productId", .string "p1")] }

/-- An order under key `k4` for one and a half items. -/
def orderHalf : Request :=
  { route := .placeOrder, authorization := userBearer, idempotencyKey := some "k4",
    body := [("productId", .string "p1"), ("quantity", .number (.finite (3 / 2)))] }

/-- An order under key `k5` for zero items. -/
def orderZero : Request :=
  { route := .placeOrder, authorization := userBearer, idempotencyKey := some "k5",
    body := [("productId", .string "p1"), ("quantity", .number (.finite 0))] }

/-- The product list request; it carries no header. -/
def listRequest : Request :=
  { route := .listProducts, authorization := none, idempotencyKey := none, body := [] }

/-- The login request of the seeded admin. -/
def loginAdmin : Request :=
  { route := .login, authorization := none, idempotencyKey := none,
    body := [("email", .string "admin@test.com"), ("password", .string "1234")] }

/-- The seeded admin. -/
def seededAdmin : User := { id := 1, email := "admin@test.com", password := "1234", role := "admin" }

/-- The seeded role-user account. -/
def seededUser : User := { id := 2, email := "user@test.com", password := "1234", role := "user" }

/-- A login with an email that no seeded user has. -/
def loginUnknownEmail : Request :=
  { route := .login, authorization := none, idempotencyKey := none,
    body := [("email", .string "nobody@test.com"), ("password", .string "1234")] }

/-- A login with the admin's email and a wrong password. -/
def loginWrongPassword : Request :=
  { route := .login, authorization := none, idempotencyKey := none,
    body := [("email", .string "admin@test.com"), ("password", .string "4321")] }

/-- A moment after the expiry of the example tokens. -/
def envLate : Env := { now := 4000, uuid := "id-9" }

/-- An order under the fresh key `k6` whose `productId` is the empty string. -/
def orderEmptyProductId : Request :=
  { route := .placeOrder, authorization := userBearer, idempotencyKey := some "k6",
    body := [("productId", .string ""), ("quantity", .number (.finite 1))] }

/-- An order under the fresh key `k7` whose `quantity` is the object
`{ "toString": 1 }`. -/
def orderObjectQuantity : Request :=
  { route := .placeOrder, authorization := userBearer, idempotencyKey := some "k7",
    body := [("productId", .string "p1"),
             ("quantity", .object [("toString", .number (.finite 1))])] }

/-- A well-formed order whose `Idempotency-Key` header is the empty string. -/
def orderEmptyKey : Request :=
  { route := .placeOrder, authorization := userBearer, idempotencyKey := some "",
    body := [("productId", .string "p1"), ("quantity", .number (.finite 2))] }

/-- A state in which the key `k1` has been seen. -/
def stateSeenK1 : State :=
  { products := [],
    orders := [⟨"id-0", .number (.finite 2), .string "p1", .number (.finite 2), "PAID"⟩],
    idempotencyKeys := ["k1"] }

/-! ## Basic facts about the handlers -/

theorem leZero_number (R : Runtime) (n : JSNum) :
    leZero R (.number n) = some n.leZero := rfl

theorem leZero_undefined (R : Runtime) : leZero R .undefined = some false := rfl

theorem leZero_finite_pos (R : Runtime) (q : ℚ) (h : 0 < q) :
    leZero R (.number (.finite q)) = some false := by
  simp [leZero, toNumber, JSNum.leZero, h]

theorem leZero_finite_nonpos (R : Runtime) (q : ℚ) (h : q ≤ 0) :
    leZero R (.number (.finite q)) = some true := by
  simp [leZero, toNumber, JSNum.leZero, h]

theorem authenticate_error_status (R : Runtime) (now : Nat) (authorization : Option String)
    (res : Response) (h : authenticate R now authorization = .error res) :
    res.status = 401 := by
  unfold authenticate at h
  split at h
  · cases h; rfl
  · split at h
    · cases h; rfl
    · split at h
      · cases h
      · cases h; rfl

theorem authorize_eq_true_iff (roles : List String) (user : JSObject) :
    authorize roles user = true ↔ ∃ r ∈ roles, user.get "role" = .string r := by
  unfold authorize
  cases hv : user.get "role" <;> simp

theorem guarded_of_authenticated (R : Runtime) (s : State) (env : Env) (req : Request)
    (role : String) (handler : JSObject → Response × State)
    (h : authenticatedAs R env req role) :
    ∃ user, authenticate R env.now req.authorization = .ok user ∧
      user.get "role" = .string role ∧
      guarded R s env.now req.authorization [role] handler = handler user := by
  obtain ⟨user, hu, hr⟩ := h
  refine ⟨user, hu, hr, ?_⟩
  have ha : authorize [role] user = true :=
    (authorize_eq_true_iff _ _).2 ⟨role, List.mem_singleton.2 rfl, hr⟩
  simp [guarded, hu, ha]

/-- What a 201 answer of `POST /orders` means. -/
theorem placeOrder_created (R : Runtime) (s : State) (uuid : String) (user : JSObject)
    (idempotencyKey : Option String) (body : JSObject)
    (h : (placeOrder R s uuid user idempotencyKey body).1.status = 201) :
    ∃ key, idempotencyKey = some key ∧ key ≠ "" ∧ key ∉ s.idempotencyKeys ∧
      truthy (body.get "productId") = true ∧ leZero R (body.get "quantity") = some false ∧
      placeOrder R s uuid user idempotencyKey body =
        (⟨201, .order ⟨uuid, user.get "id", body.get "productId", body.get "quantity", "PAID"⟩⟩,
          { s with idempotencyKeys := s.idempotencyKeys ++ [key],
                   orders := s.orders ++
                     [⟨uuid, user.get "id", body.get "productId", body.get "quantity", "PAID"⟩] }) := by
  unfold placeOrder at h ⊢
  cases idempotencyKey with
  | none => simp at h
  | some key =>
    by_cases hk : key = ""
    · simp [hk] at h
    · by_cases hm : key ∈ s.idempotencyKeys
      · simp [hk, hm] at h
      · by_cases hp : truthy (body.get "productId") = true
        · cases hq : leZero R (body.get "quantity") with
          | none => simp [hk, hm, hp, hq] at h
          | some b =>
            cases b with
            | true => simp [hk, hm, hp, hq] at h
            | false =>
              refine ⟨key, rfl, hk, hm, hp, rfl, ?_⟩
              simp [hk, hm, hp, hq, setAdd]
        · simp [hk, hm, hp] at h

/-- Any answer of `POST /orders` other than 201 leaves the state as it was. -/
theorem placeOrder_not_created (R : Runtime) (s : State) (uuid : String) (user : JSObject)
    (idempotencyKey : Option String) (body : JSObject)
    (h : (placeOrder R s uuid user idempotencyKey body).1.status ≠ 201) :
    (placeOrder R s uuid user idempotencyKey body).2 = s := by
  unfold placeOrder at h ⊢
  cases idempotencyKey with
  | none => rfl
  | some key =>
    by_cases hk : key = ""
    · simp [hk]
    · by_cases hm : key ∈ s.idempotencyKeys
      · simp [hk, hm]
      · by_cases hp : truthy (body.get "productId") = true
        · cases hq : leZero R (body.get "quantity") with
          | none => simp [hk, hm, hp, hq]
          | some b =>
            cases b with
            | true => simp [hk, hm, hp, hq]
            | false => simp [hk, hm, hp, hq] at h
        · simp [hk, hm, hp]

/-- What a 201 answer of `POST /products` means. -/
theorem createProduct_created (R : Runtime) (s : State) (uuid : String) (body : JSObject)
    (h : (createProduct R s uuid body).1.status = 201) :
    truthy (body.get "name") = true ∧ leZero R (body.get "price") = some false ∧
      createProduct R s uuid body =
        (⟨201, .product ⟨uuid, body.get "name", body.get "price"⟩⟩,
          { s with products := s.products ++ [⟨uuid, body.get "name", body.get "price"⟩] }) := by
  unfold createProduct at h ⊢
  by_cases hn : truthy (body.get "name") = true
  · cases hq : leZero R (body.get "price") with
    | none => simp [hn, hq] at h
    | some b =>
      cases b with
      | true => simp [hn, hq] at h
      | false => simp [hn, hq]
  · simp [hn] at h

/-- Any answer of `POST /products` other than 201 leaves the state as it was. -/
theorem createProduct_not_created (R : Runtime) (s : State) (uuid : String) (body : JSObject)
    (h : (createProduct R s uuid body).1.status ≠ 201) :
    (createProduct R s uuid body).2 = s := by
  unfold createProduct at h ⊢
  by_cases hn : truthy (body.get "name") = true
  · cases hq : leZero R (body.get "price") with
    | none => simp [hn, hq]
    | some b =>
      cases b with
      | true => simp [hn, hq]
      | false => simp [hn, hq] at h
  · simp [hn]

/-- The three outcomes of a guarded route. -/
theorem guarded_cases (R : Runtime) (s : State) (now : Nat) (authorization : Option String)
    (roles : List String) (handler : JSObject → Response × State) :
    (∃ res, res.status = 401 ∧ guarded R s now authorization roles handler = (res, s)) ∨
    (guarded R s now authorization roles handler = (⟨403, .message "Forbidden"⟩, s)) ∨
    (∃ user, authenticate R now authorization = .ok user ∧ authorize roles user = true ∧
      guarded R s now authorization roles handler = handler user) := by
  unfold guarded
  cases ha : authenticate R now authorization with
  | error res => exact Or.inl ⟨res, authenticate_error_status R now authorization res ha, rfl⟩
  | ok user =>
    by_cases hz : authorize roles user = true
    · exact Or.inr (Or.inr ⟨user, rfl, hz, by simp [hz]⟩)
    · exact Or.inr (Or.inl (by simp [hz]))

/-- A 201 answer on the order route: who was authenticated, which key was
fresh, and what exactly was stored. -/
theorem step_order_created (R : Runtime) (s : State) (env : Env) (req : Request)
    (hroute : req.route = .placeOrder) (h : (step R s env req).1.status = 201) :
    ∃ user key, authenticate R env.now req.authorization = .ok user ∧
      authorize ["user"] user = true ∧
      req.idempotencyKey = some key ∧ key ≠ "" ∧ key ∉ s.idempotencyKeys ∧
      truthy (req.body.get "productId") = true ∧
      leZero R (req.body.get "quantity") = some false ∧
      step R s env req =
        (⟨201, .order ⟨env.uuid, user.get "id", req.body.get "productId",
            req.body.get "quantity", "PAID"⟩⟩,
          { s with idempotencyKeys := s.idempotencyKeys ++ [key],
                   orders := s.orders ++ [⟨env.uuid, user.get "id", req.body.get "productId",
                     req.body.get "quantity", "PAID"⟩] }) := by
  simp only [step, hroute] at h ⊢
  rcases guarded_cases R s env.now req.authorization ["user"]
    (fun user => placeOrder R s env.uuid user req.idempotencyKey req.body) with
    ⟨res, hres, hg⟩ | hg | ⟨user, hu, hz, hg⟩
  · rw [hg] at h; simp only at h; omega
  · rw [hg] at h; simp at h
  · rw [hg] at h ⊢
    obtain ⟨key, hk, hne, hnm, hp, hq, heq⟩ := placeOrder_created R s env.uuid user _ _ h
    exact ⟨user, key, hu, hz, hk, hne, hnm, hp, hq, heq⟩

/-- A 201 answer on the product route: an admin was authenticated and the
product of the body was appended. -/
theorem step_product_created (R : Runtime) (s : State) (env : Env) (req : Request)
    (hroute : req.route = .createProduct) (h : (step R s env req).1.status = 201) :
    (∃ user, authenticate R env.now req.authorization = .ok user ∧
      authorize ["admin"] user = true) ∧
      truthy (req.body.get "name") = true ∧ leZero R (req.body.get "price") = some false ∧
      step R s env req =
        (⟨201, .product ⟨env.uuid, req.body.get "name", req.body.get "price"⟩⟩,
          { s with products := s.products ++
              [⟨env.uuid, req.body.get "name", req.body.get "price"⟩] }) := by
  simp only [step, hroute] at h ⊢
  rcases guarded_cases R s env.now req.authorization ["admin"]
    (fun _ => createProduct R s env.uuid req.body) with
    ⟨res, hres, hg⟩ | hg | ⟨user, hu, hz, hg⟩
  · rw [hg] at h; simp only at h; omega
  · rw [hg] at h; simp at h
  · rw [hg] at h ⊢
    obtain ⟨hn, hq, heq⟩ := createProduct_created R s env.uuid req.body h
    exact ⟨⟨user, hu, hz⟩, hn, hq, heq⟩

/-- A request that is not answered 201 leaves the whole state as it was. -/
theorem step_not_created (R : Runtime) (s : State) (env : Env) (req : Request)
    (h : (step R s env req).1.status ≠ 201) : (step R s env req).2 = s := by
  unfold step at h ⊢
  cases hr : req.route with
  | login => rfl
  | listProducts => rfl
  | createProduct =>
    simp only [hr] at h ⊢
    rcases guarded_cases R s env.now req.authorization ["admin"]
      (fun _ => createProduct R s env.uuid req.body) with
      ⟨res, _, hg⟩ | hg | ⟨user, _, _, hg⟩
    · rw [hg]
    · rw [hg]
    · rw [hg] at h ⊢
      exact createProduct_not_created R s env.uuid req.body h
  | placeOrder =>
    simp only [hr] at h ⊢
    rcases guarded_cases R s env.now req.authorization ["user"]
      (fun user => placeOrder R s env.uuid user req.idempotencyKey req.body) with
      ⟨res, _, hg⟩ | hg | ⟨user, _, _, hg⟩
    · rw [hg]
    · rw [hg]
    · rw [hg] at h ⊢
      exact placeOrder_not_created R s env.uuid user _ _ h

/-- Only the two creating routes answer 201. -/
theorem step_created_route (R : Runtime) (s : State) (env : Env) (req : Request)
    (h : (step R s env req).1.status = 201) :
    req.route = .createProduct ∨ req.route = .placeOrder := by
  cases hr : req.route with
  | login =>
    exfalso
    simp only [step, hr, login] at h
    split at h
    · simp at h
    · split at h <;> simp at h
  | listProducts => simp [step, hr] at h
  | createProduct => exact Or.inl rfl
  | placeOrder => exact Or.inr rfl

theorem run_append (R : Runtime) (s : State) (t₁ t₂ : List (Env × Request)) :
    run R s (t₁ ++ t₂) = run R (run R s t₁) t₂ := by
  induction t₁ generalizing s with
  | nil => rfl
  | cons x t ih =>
    obtain ⟨env, req⟩ := x
    simp only [List.cons_append, run]
    exact ih _

theorem run_snoc (R : Runtime) (s : State) (t : List (Env × Request)) (env : Env)
    (req : Request) :
    run R s (t ++ [(env, req)]) = (step R (run R s t) env req).2 := by
  rw [run_append]; rfl

/-- A key, once in the ledger, stays there through any request. -/
theorem step_keeps_key (R : Runtime) (s : State) (env : Env) (req : Request) (k : String)
    (h : k ∈ s.idempotencyKeys) : k ∈ (step R s env req).2.idempotencyKeys := by
  by_cases hc : (step R s env req).1.status = 201
  · rcases step_created_route R s env req hc with hr | hr
    · rw [(step_product_created R s env req hr hc).2.2.2]
      exact h
    · obtain ⟨user, key, _, _, _, _, _, _, _, heq⟩ := step_order_created R s env req hr hc
      rw [heq]
      exact List.mem_append_left _ h
  · rw [step_not_created R s env req hc]
    exact h

theorem run_keeps_key (R : Runtime) (s : State) (t : List (Env × Request)) (k : String)
    (h : k ∈ s.idempotencyKeys) : k ∈ (run R s t).idempotencyKeys := by
  induction t generalizing s with
  | nil => exact h
  | cons x t ih =>
    obtain ⟨env, req⟩ := x
    exact ih _ (step_keeps_key R s env req k h)

/-- An order request of a role-user caller with a key already in the ledger. -/
theorem step_duplicate (R : Runtime) (s : State) (env : Env) (req : Request) (k : String)
    (hk : k ≠ "") (hroute : req.route = .placeOrder) (hkey : req.idempotencyKey = some k)
    (hseen : k ∈ s.idempotencyKeys) (hauth : authenticatedAs R env req "user") :
    step R s env req = (⟨409, .message "Duplicate request"⟩, s) := by
  obtain ⟨user, _, _, hg⟩ := guarded_of_authenticated R s env req "user"
    (fun user => placeOrder R s env.uuid user req.idempotencyKey req.body) hauth
  simp only [step, hroute, hg]
  simp [placeOrder, hkey, hseen, hk]

/-- With the key already in the ledger, no request carrying it is answered 201. -/
theorem createdWithKey_of_seen (R : Runtime) (k : String) (s : State)
    (t : List (Env × Request)) (h : k ∈ s.idempotencyKeys) : createdWithKey R k s t = 0 := by
  induction t generalizing s with
  | nil => rfl
  | cons x t ih =>
    obtain ⟨env, req⟩ := x
    have hhead : ¬ (carriesKey k req ∧ (step R s env req).1.status = 201) := by
      rintro ⟨⟨hr, hkey⟩, hc⟩
      obtain ⟨user, key, _, _, hk', _, hnm, _⟩ := step_order_created R s env req hr hc
      rw [hkey] at hk'
      cases hk'
      exact hnm h
    simp only [createdWithKey, if_neg hhead, Nat.zero_add]
    exact ih _ (step_keeps_key R s env req k h)

theorem createdWithKey_le_one (R : Runtime) (k : String) (s : State)
    (t : List (Env × Request)) : createdWithKey R k s t ≤ 1 := by
  induction t generalizing s with
  | nil => simp [createdWithKey]
  | cons x t ih =>
    obtain ⟨env, req⟩ := x
    by_cases hhead : carriesKey k req ∧ (step R s env req).1.status = 201
    · obtain ⟨⟨hr, hkey⟩, hc⟩ := hhead
      obtain ⟨user, key, _, _, hk', _, _, _, _, heq⟩ := step_order_created R s env req hr hc
      rw [hkey] at hk'
      cases hk'
      have hin : k ∈ (step R s env req).2.idempotencyKeys := by
        rw [heq]; simp
      simp only [createdWithKey, createdWithKey_of_seen R k _ t hin]
      split <;> omega
    · simp only [createdWithKey, if_neg hhead, Nat.zero_add]
      exact ih _

/-- Every stored order was put there by a `POST /orders` request of the
sequence that was answered 201 with that very order. -/
theorem order_origin (R : Runtime) (trace : List (Env × Request)) (o : Order)
    (h : o ∈ (run R State.init trace).orders) :
    ∃ before env req after, trace = before ++ (env, req) :: after ∧
      req.route = .placeOrder ∧
      (step R (run R State.init before) env req).1 = ⟨201, .order o⟩ := by
  induction trace using List.reverseRecOn with
  | nil => simp [run, State.init] at h
  | append_singleton t x ih =>
    obtain ⟨env, req⟩ := x
    rw [run_snoc] at h
    by_cases hc : (step R (run R State.init t) env req).1.status = 201
    · rcases step_created_route R _ env req hc with hr | hr
      · rw [(step_product_created R _ env req hr hc).2.2.2] at h
        obtain ⟨before, env', req', after, ht, hr', hs⟩ := ih h
        exact ⟨before, env', req', after ++ [(env, req)], by simp [ht], hr', hs⟩
      · obtain ⟨user, key, _, _, _, _, _, _, _, heq⟩ := step_order_created R _ env req hr hc
        rw [heq] at h
        rcases List.mem_append.1 h with hold | hnew
        · obtain ⟨before, env', req', after, ht, hr', hs⟩ := ih hold
          exact ⟨before, env', req', after ++ [(env, req)], by simp [ht], hr', hs⟩
        · rw [List.mem_singleton] at hnew
          refine ⟨t, env, req, [], rfl, hr, ?_⟩
          rw [heq, hnew]
    · rw [step_not_created R _ env req hc] at h
      obtain ⟨before, env', req', after, ht, hr', hs⟩ := ih h
      exact ⟨before, env', req', after ++ [(env, req)], by simp [ht], hr', hs⟩

/-- Every stored product was put there by a `POST /products` request of the
sequence that was answered 201 with that very product. -/
theorem product_origin (R : Runtime) (trace : List (Env × Request)) (p : Product)
    (h : p ∈ (run R State.init trace).products) :
    ∃ before env req after, trace = before ++ (env, req) :: after ∧
      req.route = .createProduct ∧
      (step R (run R State.init before) env req).1 = ⟨201, .product p⟩ := by
  induction trace using List.reverseRecOn with
  | nil => simp [run, State.init] at h
  | append_singleton t x ih =>
    obtain ⟨env, req⟩ := x
    rw [run_snoc] at h
    by_cases hc : (step R (run R State.init t) env req).1.status = 201
    · rcases step_created_route R _ env req hc with hr | hr
      · have heq := (step_product_created R _ env req hr hc).2.2.2
        rw [heq] at h
        rcases List.mem_append.1 h with hold | hnew
        · obtain ⟨before, env', req', after, ht, hr', hs⟩ := ih hold
          exact ⟨before, env', req', after ++ [(env, req)], by simp [ht], hr', hs⟩
        · rw [List.mem_singleton] at hnew
          refine ⟨t, env, req, [], rfl, hr, ?_⟩
          rw [heq, hnew]
      · obtain ⟨user, key, _, _, _, _, _, _, _, heq⟩ := step_order_created R _ env req hr hc
        rw [heq] at h
        obtain ⟨before, env', req', after, ht, hr', hs⟩ := ih h
        exact ⟨before, env', req', after ++ [(env, req)], by simp [ht], hr', hs⟩
    · rw [step_not_created R _ env req hc] at h
      obtain ⟨before, env', req', after, ht, hr', hs⟩ := ih h
      exact ⟨before, env', req', after ++ [(env, req)], by simp [ht], hr', hs⟩

/-- A well-formed order of a role-user caller under a fresh key is stored. -/
theorem step_valid_order (R : Runtime) (s : State) (env : Env) (req : Request) (k : String)
    (user : JSObject)
    (hk : k ≠ "") (hroute : req.route = .placeOrder) (hkey : req.idempotencyKey = some k)
    (hfresh : k ∉ s.idempotencyKeys)
    (hauth : authenticate R env.now req.authorization = .ok user)
    (hrole : user.get "role" = .string "user")
    (hp : truthy (req.body.get "productId") = true)
    (hq : leZero R (req.body.get "quantity") = some false) :
    step R s env req =
      (⟨201, .order ⟨env.uuid, user.get "id", req.body.get "productId",
          req.body.get "quantity", "PAID"⟩⟩,
        { s with idempotencyKeys := s.idempotencyKeys ++ [k],
                 orders := s.orders ++ [⟨env.uuid, user.get "id", req.body.get "productId",
                   req.body.get "quantity", "PAID"⟩] }) := by
  have ha : authorize ["user"] user = true :=
    (authorize_eq_true_iff _ _).2 ⟨"user", List.mem_singleton.2 rfl, hrole⟩
  simp [step, hroute, guarded, hauth, ha, placeOrder, hkey, hk, hfresh, hp, hq, setAdd]

/-- An order of a role-user caller under a fresh key whose `productId` is falsy
or whose `quantity <= 0` holds is refused and changes nothing. -/
theorem step_invalid_order (R : Runtime) (s : State) (env : Env) (req : Request) (k : String)
    (hk : k ≠ "") (hroute : req.route = .placeOrder) (hkey : req.idempotencyKey = some k)
    (hfresh : k ∉ s.idempotencyKeys)
    (hauth : authenticatedAs R env req "user")
    (hbad : truthy (req.body.get "productId") = false ∨
      leZero R (req.body.get "quantity") = some true) :
    step R s env req = (⟨400, .message "Invalid order"⟩, s) := by
  obtain ⟨user, _, _, hg⟩ := guarded_of_authenticated R s env req "user"
    (fun user => placeOrder R s env.uuid user req.idempotencyKey req.body) hauth
  simp only [step, hroute, hg]
  rcases hbad with hp | hq
  · simp [placeOrder, hkey, hk, hfresh, hp]
  · by_cases hp : truthy (req.body.get "productId") = true
    · simp [placeOrder, hkey, hk, hfresh, hp, hq]
    · simp [placeOrder, hkey, hk, hfresh, hp]

/-- A product request of an admin whose `name` is falsy or whose `price <= 0`
holds is refused and changes nothing. -/
theorem step_invalid_product (R : Runtime) (s : State) (env : Env) (req : Request)
    (hroute : req.route = .createProduct) (hauth : authenticatedAs R env req "admin")
    (hbad : truthy (req.body.get "name") = false ∨
      leZero R (req.body.get "price") = some true) :
    step R s env req = (⟨400, .message "Invalid product"⟩, s) := by
  obtain ⟨user, _, _, hg⟩ := guarded_of_authenticated R s env req "admin"
    (fun _ => createProduct R s env.uuid req.body) hauth
  simp only [step, hroute, hg]
  rcases hbad with hn | hq
  · simp [createProduct, hn]
  · by_cases hn : truthy (req.body.get "name") = true
    · simp [createProduct, hn, hq]
    · simp [createProduct, hn]

/-- The catalog after a sequence of requests: what was there, followed by the
products of the successful creations, in their order. -/
theorem run_products (R : Runtime) (s : State) (trace : List (Env × Request)) :
    (run R s trace).products = s.products ++ (successfulCreates R s trace).map productOf := by
  induction trace generalizing s with
  | nil => simp [run, successfulCreates]
  | cons x t ih =>
    obtain ⟨env, req⟩ := x
    simp only [run, successfulCreates]
    rw [ih]
    by_cases hc : (step R s env req).1.status = 201
    · by_cases hr : req.route = .createProduct
      · rw [if_pos ⟨hr, hc⟩, (step_product_created R s env req hr hc).2.2.2]
        simp [productOf]
      · have hr' : req.route = .placeOrder := by
          rcases step_created_route R s env req hc with h | h
          · exact absurd h hr
          · exact h
        obtain ⟨user, key, _, _, _, _, _, _, _, heq⟩ := step_order_created R s env req hr' hc
        rw [if_neg (fun h => hr h.1), heq]
        simp
    · rw [if_neg (fun h => hc h.2), step_not_created R s env req hc]
      simp

theorem exampleDecode_user : exampleRuntime.decode "Usnn" =
    some { claims := [("id", .number (.finite 2)), ("role", .string "user")],
           iat := 0, exp := 3600, key := JWT_SECRET } := by
  simp [exampleRuntime, exampleDecode]

theorem exampleDecode_admin : exampleRuntime.decode "Asn" =
    some { claims := [("id", .number (.finite 1)), ("role", .string "admin")],
           iat := 0, exp := 3600, key := JWT_SECRET } := by
  simp [exampleRuntime, exampleDecode]

theorem userBearer_authenticate (now : Nat) (hnow : now ≤ 3600) :
    authenticate exampleRuntime now userBearer =
      .ok [("id", .number (.finite 2)), ("role", .string "user")] := by
  have hs : secondPart "Bearer Usnn" = some "Usnn" := by decide
  have hlt : ¬ 3600 < now := by omega
  simp [authenticate, userBearer, hs, jwtVerify, exampleDecode_user, hlt]

theorem adminBearer_authenticate (now : Nat) (hnow : now ≤ 3600) :
    authenticate exampleRuntime now adminBearer =
      .ok [("id", .number (.finite 1)), ("role", .string "admin")] := by
  have hs : secondPart "Bearer Asn" = some "Asn" := by decide
  have hlt : ¬ 3600 < now := by omega
  simp [authenticate, adminBearer, hs, jwtVerify, exampleDecode_admin, hlt]

theorem userBearer_authenticated (req : Request) (env : Env) (h : req.authorization = userBearer)
    (hnow : env.now ≤ 3600) : authenticatedAs exampleRuntime env req "user" :=
  ⟨[("id", .number (.finite 2)), ("role", .string "user")],
    by rw [h]; exact userBearer_authenticate env.now hnow, rfl⟩

theorem adminBearer_authenticated (req : Request) (env : Env) (h : req.authorization = adminBearer)
    (hnow : env.now ≤ 3600) : authenticatedAs exampleRuntime env req "admin" :=
  ⟨[("id", .number (.finite 1)), ("role", .string "admin")],
    by rw [h]; exact adminBearer_authenticate env.now hnow, rfl⟩

theorem otherUserBearer_authenticate (now : Nat) (hnow : now ≤ 3600) :
    authenticate exampleRuntime now otherUserBearer =
      .ok [("id", .number (.finite 3)), ("role", .string "user")] := by
  have hs : secondPart "Bearer Usnnn" = some "Usnnn" := by decide
  have hd : exampleRuntime.decode "Usnnn" =
      some { claims := [("id", .number (.finite 3)), ("role", .string "user")],
             iat := 0, exp := 3600, key := JWT_SECRET } := by
    simp [exampleRuntime, exampleDecode]
  have hlt : ¬ 3600 < now := by omega
  simp [authenticate, otherUserBearer, hs, jwtVerify, hd, hlt]

theorem step_orderK1 :
    step exampleRuntime State.init env0 orderK1 =
      (⟨201, .order ⟨"id-0", .number (.finite 2), .string "p1", .number (.finite 2), "PAID"⟩⟩,
        { products := [],
          orders := [⟨"id-0", .number (.finite 2), .string "p1", .number (.finite 2), "PAID"⟩],
          idempotencyKeys := ["k1"] }) := by
  have ha := userBearer_authenticate 10 (by decide)
  have hq := leZero_finite_pos exampleRuntime 2 (by norm_num)
  simp [step, orderK1, env0, guarded, ha, authorize, JSObject.get, List.lookup, placeOrder,
    hq, truthy, setAdd, State.init]

theorem credentialsMatch_iff (email password : JSValue) (u : User) :
    credentialsMatch email password u = true ↔
      email = .string u.email ∧ password = .string u.password := by
  unfold credentialsMatch strictEqString
  cases email <;> cases password <;> simp
  constructor
  · rintro ⟨h₁, h₂⟩; exact ⟨h₁.symm, h₂.symm⟩
  · rintro ⟨h₁, h₂⟩; exact ⟨h₁.symm, h₂.symm⟩

/-! ## C1: at most one order per idempotency key -/

/-- C1. Starting from the empty state, for every sequence of requests and
every non-empty key `k`: at most one `POST /orders` request carrying `k` is
answered 201; and whenever one carrying `k` has been answered 201, every later
`POST /orders` request carrying `k` from an authenticated role-user caller,
whatever its body and whoever sends it, is answered 409 "Duplicate request"
and leaves the state (so the order list) as it was. -/
theorem at_most_once_per_key (R : Runtime) (k : String) (hk : k ≠ "")
    (trace : List (Env × Request)) :
    createdWithKey R k State.init trace ≤ 1 ∧
    ∀ before env₁ first between env₂ later after,
      trace = before ++ (env₁, first) :: (between ++ (env₂, later) :: after) →
      carriesKey k first →
      (step R (run R State.init before) env₁ first).1.status = 201 →
      carriesKey k later →
      authenticatedAs R env₂ later "user" →
      step R (run R State.init (before ++ (env₁, first) :: between)) env₂ later =
        (⟨409, .message "Duplicate request"⟩,
          run R State.init (before ++ (env₁, first) :: between)) := by
  refine ⟨createdWithKey_le_one R k State.init trace, ?_⟩
  intro before env₁ first between env₂ later after _ hfirst hcreated hlater hauth
  obtain ⟨user, key, _, _, hkey, _, _, _, _, heq⟩ :=
    step_order_created R _ env₁ first hfirst.1 hcreated
  rw [hfirst.2] at hkey
  cases hkey
  have hseen : k ∈ (run R State.init (before ++ (env₁, first) :: between)).idempotencyKeys := by
    rw [run_append]
    simp only [run]
    apply run_keeps_key
    rw [heq]
    simp
  exact step_duplicate R _ env₂ later k hk hlater.1 hlater.2 hseen hauth

theorem at_most_once_per_key_witness :
    createdWithKey exampleRuntime "k1" State.init [(env0, orderK1), (env1, orderK1Other)] ≤ 1 ∧
    step exampleRuntime (run exampleRuntime State.init [(env0, orderK1)]) env1 orderK1Other =
      (⟨409, .message "Duplicate request"⟩, run exampleRuntime State.init [(env0, orderK1)]) :=
  ⟨(at_most_once_per_key exampleRuntime "k1" (by decide)
      [(env0, orderK1), (env1, orderK1Other)]).1,
    (at_most_once_per_key exampleRuntime "k1" (by decide)
      [(env0, orderK1), (env1, orderK1Other)]).2 [] env0 orderK1 [] env1 orderK1Other [] rfl
      ⟨rfl, rfl⟩ (by rw [show run exampleRuntime State.init [] = State.init from rfl, step_orderK1])
      ⟨rfl, rfl⟩
      ⟨[("id", .number (.finite 3)), ("role", .string "user")],
        otherUserBearer_authenticate 20 (by decide), rfl⟩⟩

/-! ## C2: a refused order and its idempotency key -/

/-- C2, as stated, fails: from the empty state, an order under key `k1` that
lacks its `productId` is answered 400 and leaves `k1` out of the ledger, and the
valid order under `k1` that follows is answered 201, not 409. -/
theorem malformed_order_burns_key_counterexample :
    step exampleRuntime State.init env0 orderMalformedK1 =
      (⟨400, .message "Invalid order"⟩, State.init) ∧
    "k1" ∉ (step exampleRuntime State.init env0 orderMalformedK1).2.idempotencyKeys ∧
    (step exampleRuntime (step exampleRuntime State.init env0 orderMalformedK1).2
      env0 orderK1).1.status = 201 := by
  have h : step exampleRuntime State.init env0 orderMalformedK1 =
      (⟨400, .message "Invalid order"⟩, State.init) := by
    have ha := userBearer_authenticate 10 (by decide)
    simp [step, orderMalformedK1, env0, guarded, ha, authorize, JSObject.get, List.lookup,
      placeOrder, truthy, State.init]
  refine ⟨h, ?_, ?_⟩
  · rw [h]; simp [State.init]
  · rw [h, step_orderK1]

/-- C2, amended. In every state in which the non-empty key `k` has not been
seen, an order of an authenticated role-user caller under `k` whose `productId`
is falsy (absent, in particular) or whose `quantity <= 0` holds is answered 400
"Invalid order", creates no order and leaves the ledger as it was, `k` still
unseen; a valid order under `k` that comes next is answered 201. -/
theorem malformed_order_keeps_key (R : Runtime) (s : State) (env : Env) (req : Request)
    (k : String) (hk : k ≠ "") (hfresh : k ∉ s.idempotencyKeys)
    (hroute : req.route = .placeOrder) (hkey : req.idempotencyKey = some k)
    (hauth : authenticatedAs R env req "user")
    (hbad : truthy (req.body.get "productId") = false ∨
      leZero R (req.body.get "quantity") = some true) :
    step R s env req = (⟨400, .message "Invalid order"⟩, s) ∧
    k ∉ (step R s env req).2.idempotencyKeys ∧
    ∀ (env' : Env) (req' : Request), carriesKey k req' →
      authenticatedAs R env' req' "user" →
      truthy (req'.body.get "productId") = true →
      leZero R (req'.body.get "quantity") = some false →
      (step R (step R s env req).2 env' req').1.status = 201 := by
  have h := step_invalid_order R s env req k hk hroute hkey hfresh hauth hbad
  refine ⟨h, by rw [h]; exact hfresh, ?_⟩
  intro env' req' hcarries hauth' hp hq
  obtain ⟨user, hu, hr⟩ := hauth'
  rw [h, step_valid_order R s env' req' k user hk hcarries.1 hcarries.2 hfresh hu hr hp hq]

theorem malformed_order_keeps_key_witness :
    step exampleRuntime State.init env0 orderMalformedK1 =
      (⟨400, .message "Invalid order"⟩, State.init) ∧
    "k1" ∉ (step exampleRuntime State.init env0 orderMalformedK1).2.idempotencyKeys ∧
    ∀ (env' : Env) (req' : Request), carriesKey "k1" req' →
      authenticatedAs exampleRuntime env' req' "user" →
      truthy (req'.body.get "productId") = true →
      leZero exampleRuntime (req'.body.get "quantity") = some false →
      (step exampleRuntime (step exampleRuntime State.init env0 orderMalformedK1).2
        env' req').1.status = 201 :=
  malformed_order_keeps_key exampleRuntime State.init env0 orderMalformedK1 "k1" (by decide)
    (by simp [State.init]) rfl rfl (userBearer_authenticated orderMalformedK1 env0 rfl (by decide))
    (Or.inl rfl)

/-! ## C3: the owner of an order -/

/-- C3. Whenever `POST /orders` is answered 201, for every body (one carrying
a `userId` field included), the order returned and appended to the order list
has as `userId` the `id` of the payload that `authenticate` verified for this
request. Hence every order stored after any sequence of requests from the
empty state has the `id` of the identity whose request created it. -/
theorem order_owner (R : Runtime) (trace : List (Env × Request)) :
    (∀ (s : State) (env : Env) (req : Request), req.route = .placeOrder →
      (step R s env req).1.status = 201 →
      ∃ user o, authenticate R env.now req.authorization = .ok user ∧
        (step R s env req).1 = ⟨201, .order o⟩ ∧
        (step R s env req).2.orders = s.orders ++ [o] ∧
        o.userId = user.get "id") ∧
    (∀ o ∈ (run R State.init trace).orders,
      ∃ before env req after user, trace = before ++ (env, req) :: after ∧
        req.route = .placeOrder ∧
        authenticate R env.now req.authorization = .ok user ∧
        (step R (run R State.init before) env req).1 = ⟨201, .order o⟩ ∧
        o.userId = user.get "id") := by
  have first : ∀ (s : State) (env : Env) (req : Request), req.route = .placeOrder →
      (step R s env req).1.status = 201 →
      ∃ user o, authenticate R env.now req.authorization = .ok user ∧
        (step R s env req).1 = ⟨201, .order o⟩ ∧
        (step R s env req).2.orders = s.orders ++ [o] ∧
        o.userId = user.get "id" := by
    intro s env req hr hc
    obtain ⟨user, key, hu, _, _, _, _, _, _, heq⟩ := step_order_created R s env req hr hc
    exact ⟨user, _, hu, by rw [heq], by rw [heq], rfl⟩
  refine ⟨first, ?_⟩
  intro o ho
  obtain ⟨before, env, req, after, ht, hr, hs⟩ := order_origin R trace o ho
  have hc : (step R (run R State.init before) env req).1.status = 201 := by rw [hs]
  obtain ⟨user, o', hu, hs', _, hid⟩ := first _ env req hr hc
  rw [hs] at hs'
  cases hs'
  exact ⟨before, env, req, after, user, ht, hr, hu, hs, hid⟩

theorem order_owner_witness :
    ∃ user o, authenticate exampleRuntime env0.now orderWithUserId.authorization = .ok user ∧
      (step exampleRuntime State.init env0 orderWithUserId).1 = ⟨201, .order o⟩ ∧
      (step exampleRuntime State.init env0 orderWithUserId).2.orders = State.init.orders ++ [o] ∧
      o.userId = user.get "id" :=
  (order_owner exampleRuntime []).1 State.init env0 orderWithUserId rfl
    (by
      rw [step_valid_order exampleRuntime State.init env0 orderWithUserId "k2"
        [("id", .number (.finite 2)), ("role", .string "user")] (by decide) rfl rfl
        (by simp [State.init]) (userBearer_authenticate 10 (by decide)) rfl rfl
        (leZero_finite_pos exampleRuntime 1 (by norm_num))])

/-! ## C4: a missing idempotency key -/

/-- C4. For every state and every `POST /orders` request of an authenticated
role-user caller whose `Idempotency-Key` header is absent or the empty string,
the answer is 400 "Missing Idempotency-Key" whatever the body, and the state
(products, orders, ledger) is unchanged. -/
theorem missing_idempotency_key (R : Runtime) (s : State) (env : Env) (req : Request)
    (hroute : req.route = .placeOrder)
    (hauth : authenticatedAs R env req "user")
    (hkey : req.idempotencyKey = none ∨ req.idempotencyKey = some "") :
    step R s env req = (⟨400, .message "Missing Idempotency-Key"⟩, s) := by
  obtain ⟨user, _, _, hg⟩ := guarded_of_authenticated R s env req "user"
    (fun user => placeOrder R s env.uuid user req.idempotencyKey req.body) hauth
  unfold step
  rw [hroute]
  simp only [hg]
  rcases hkey with hk | hk <;> simp [placeOrder, hk]

theorem missing_idempotency_key_witness :
    step exampleRuntime State.init env0 orderNoKey =
      (⟨400, .message "Missing Idempotency-Key"⟩, State.init) :=
  missing_idempotency_key exampleRuntime State.init env0 orderNoKey rfl
    (userBearer_authenticated orderNoKey env0 rfl (by decide)) (Or.inl rfl)

/-! ## C5: the authorization guard -/

/-- C5. For every verified identity and every list of required roles,
`authorize(roles)` answers 403 "Forbidden" without running the handler exactly
when the identity's role is not a member of the list, and otherwise hands over
to the handler. In particular `POST /products` with a role-user token and
`POST /orders` with a role-admin token are answered 403 and change nothing. -/
theorem authorize_guard (R : Runtime) (s : State) (env : Env) (authorization : Option String)
    (roles : List String) (user : JSObject)
    (hauth : authenticate R env.now authorization = .ok user) :
    (authorize roles user = false ↔ ∀ r ∈ roles, user.get "role" ≠ .string r) ∧
    (authorize roles user = false →
      ∀ handler, guarded R s env.now authorization roles handler =
        (⟨403, .message "Forbidden"⟩, s)) ∧
    (authorize roles user = true →
      ∀ handler, guarded R s env.now authorization roles handler = handler user) ∧
    (∀ req : Request, req.authorization = authorization →
      (req.route = .createProduct ∧ user.get "role" = .string "user" ∨
        req.route = .placeOrder ∧ user.get "role" = .string "admin") →
      step R s env req = (⟨403, .message "Forbidden"⟩, s)) := by
  have hiff : authorize roles user = false ↔ ∀ r ∈ roles, user.get "role" ≠ .string r := by
    rw [← Bool.not_eq_true, authorize_eq_true_iff]
    simp
  refine ⟨hiff, ?_, ?_, ?_⟩
  · intro h handler
    simp [guarded, hauth, h]
  · intro h handler
    simp [guarded, hauth, h]
  · intro req hreq hcase
    rcases hcase with ⟨hroute, hrole⟩ | ⟨hroute, hrole⟩
    · have hno : authorize ["admin"] user = false := by
        rw [← Bool.not_eq_true, authorize_eq_true_iff]
        simp [hrole]
      simp [step, hroute, guarded, hreq, hauth, hno]
    · have hno : authorize ["user"] user = false := by
        rw [← Bool.not_eq_true, authorize_eq_true_iff]
        simp [hrole]
      simp [step, hroute, guarded, hreq, hauth, hno]

theorem authorize_guard_witness :
    step exampleRuntime State.init env0 productByUser =
      (⟨403, .message "Forbidden"⟩, State.init) :=
  (authorize_guard exampleRuntime State.init env0 userBearer ["admin"]
    [("id", .number (.finite 2)), ("role", .string "user")]
    (userBearer_authenticate 10 (by decide))).2.2.2 productByUser rfl (Or.inl ⟨rfl, rfl⟩)

/-! ## C6: authentication comes first -/

/-- C6. For every request to a guarded route whose `Authorization` header is
absent, has no token part, or carries a token that fails verification, the
answer is a 401 response ("No token" or "Invalid token"), whatever the roles
required and whatever the handler (neither is consulted), and the state is
unchanged. -/
theorem unauthenticated_rejected (R : Runtime) (s : State) (env : Env) (req : Request)
    (hroute : req.route = .createProduct ∨ req.route = .placeOrder)
    (hbad : req.authorization = none ∨
      ∃ header, req.authorization = some header ∧
        (secondPart header = none ∨ secondPart header = some "" ∨
          ∃ token, secondPart header = some token ∧ failsVerification R env.now token)) :
    ∃ m, (m = "No token" ∨ m = "Invalid token") ∧
      step R s env req = (⟨401, .message m⟩, s) ∧
      ∀ roles handler, guarded R s env.now req.authorization roles handler =
        (⟨401, .message m⟩, s) := by
  have key : ∃ m, (m = "No token" ∨ m = "Invalid token") ∧
      authenticate R env.now req.authorization = .error ⟨401, .message m⟩ := by
    rcases hbad with h | ⟨header, h, hcase⟩
    · exact ⟨"No token", Or.inl rfl, by simp [authenticate, h]⟩
    · rcases hcase with hn | he | ⟨token, ht, hf⟩
      · exact ⟨"No token", Or.inl rfl, by simp [authenticate, h, hn]⟩
      · exact ⟨"No token", Or.inl rfl, by simp [authenticate, h, he]⟩
      · by_cases hempty : token = ""
        · exact ⟨"No token", Or.inl rfl, by simp [authenticate, h, ht, hempty]⟩
        · refine ⟨"Invalid token", Or.inr rfl, ?_⟩
          have hv : jwtVerify R token JWT_SECRET env.now = none := by
            unfold jwtVerify
            rcases hf with hd | ⟨d, hd, hk | hx⟩
            · simp [hd]
            · simp [hd, hk]
            · simp [hd, hx]
          simp [authenticate, h, ht, hempty, hv]
  obtain ⟨m, hm, ha⟩ := key
  have hg : ∀ roles handler, guarded R s env.now req.authorization roles handler =
      (⟨401, .message m⟩, s) := by
    intro roles handler
    simp [guarded, ha]
  refine ⟨m, hm, ?_, hg⟩
  rcases hroute with hr | hr
  · simp only [step, hr]
    exact hg _ _
  · simp only [step, hr]
    exact hg _ _

theorem unauthenticated_rejected_witness :
    ∃ m, (m = "No token" ∨ m = "Invalid token") ∧
      step exampleRuntime State.init env0 orderNoAuth = (⟨401, .message m⟩, State.init) ∧
      ∀ roles handler, guarded exampleRuntime State.init env0.now orderNoAuth.authorization
        roles handler = (⟨401, .message m⟩, State.init) :=
  unauthenticated_rejected exampleRuntime State.init env0 orderNoAuth (Or.inr rfl) (Or.inl rfl)

/-! ## C7: product validation -/

/-- C7, as stated, fails: from the empty state, the admin's request with a name
and no `price` is answered 201, and the catalog then holds a product whose
price is `undefined`. -/
theorem product_validation_counterexample :
    step exampleRuntime State.init env0 productNoPrice =
      (⟨201, .product ⟨"id-0", .string "Widget", .undefined⟩⟩,
        { products := [⟨"id-0", .string "Widget", .undefined⟩], orders := [],
          idempotencyKeys := [] }) := by
  have ha := adminBearer_authenticate 10 (by decide)
  simp [step, productNoPrice, env0, guarded, ha, authorize, JSObject.get, List.lookup,
    createProduct, leZero_undefined, truthy, State.init]

/-- C7, amended. For every state and every `POST /products` request of an
authenticated admin, the answer is 400 "Invalid product" and the state is
unchanged whenever `name` is falsy (absent or empty, in particular) or the
comparison `price <= 0` holds (for a number at most zero, in particular).
Consequently every product stored after any sequence of requests from the empty
state has a truthy name and a price for which `price <= 0` is false: strictly
positive whenever it is a finite number. -/
theorem product_validation (R : Runtime) (trace : List (Env × Request)) :
    (∀ (s : State) (env : Env) (req : Request), req.route = .createProduct →
      authenticatedAs R env req "admin" →
      (truthy (req.body.get "name") = false ∨
        (∃ q : ℚ, q ≤ 0 ∧ req.body.get "price" = .number (.finite q)) ∨
        leZero R (req.body.get "price") = some true) →
      step R s env req = (⟨400, .message "Invalid product"⟩, s)) ∧
    (∀ p ∈ (run R State.init trace).products,
      truthy p.name = true ∧ p.name ≠ .undefined ∧ p.name ≠ .string "" ∧
      leZero R p.price = some false ∧
      ∀ q : ℚ, p.price = .number (.finite q) → 0 < q) := by
  constructor
  · intro s env req hr hauth hbad
    apply step_invalid_product R s env req hr hauth
    rcases hbad with h | ⟨q, hq, hp⟩ | h
    · exact Or.inl h
    · exact Or.inr (by rw [hp]; exact leZero_finite_nonpos R q hq)
    · exact Or.inr h
  · intro p hp
    obtain ⟨before, env, req, after, _, hr, hs⟩ := product_origin R trace p hp
    have hc : (step R (run R State.init before) env req).1.status = 201 := by rw [hs]
    obtain ⟨_, hn, hq, heq⟩ := step_product_created R _ env req hr hc
    rw [heq] at hs
    cases hs
    refine ⟨hn, ?_, ?_, hq, ?_⟩
    · intro h; simp only at h; rw [h] at hn; cases hn
    · intro h; simp only at h; rw [h] at hn; simp [truthy] at hn
    · intro q hpq
      simp only at hpq
      rw [hpq] at hq
      by_contra hle
      rw [leZero_finite_nonpos R q (not_lt.1 hle)] at hq
      cases hq

theorem product_validation_witness :
    step exampleRuntime State.init env0 productNegative =
      (⟨400, .message "Invalid product"⟩, State.init) :=
  (product_validation exampleRuntime []).1 State.init env0 productNegative rfl
    (adminBearer_authenticated productNegative env0 rfl (by decide))
    (Or.inr (Or.inl ⟨-5, by norm_num, rfl⟩))

/-! ## C8: the catalog listing -/

/-- C8. After any sequence of requests from the empty catalog, the catalog
holds exactly the products of the `POST /products` requests that were answered
201, one for each, in the order of those requests, each with the name and price
of its request and the id its 201 answer returned; `GET /products` answers 200
with exactly that list, for any headers; and a creation request of an admin with
a falsy name or a price at most zero is answered 400 and adds nothing. -/
theorem catalog_listing (R : Runtime) (trace : List (Env × Request)) :
    (run R State.init trace).products =
      (successfulCreates R State.init trace).map productOf ∧
    (run R State.init trace).products.length = (successfulCreates R State.init trace).length ∧
    (∀ (env : Env) (req : Request), req.route = .listProducts →
      step R (run R State.init trace) env req =
        (⟨200, .products ((successfulCreates R State.init trace).map productOf)⟩,
          run R State.init trace)) ∧
    (∀ (s : State) (env : Env) (req : Request), req.route = .createProduct →
      (step R s env req).1.status = 201 →
      step R s env req =
        (⟨201, .product (productOf (env, req))⟩,
          { s with products := s.products ++ [productOf (env, req)] })) ∧
    (∀ (s : State) (env : Env) (req : Request), req.route = .createProduct →
      authenticatedAs R env req "admin" →
      (truthy (req.body.get "name") = false ∨
        ∃ q : ℚ, q ≤ 0 ∧ req.body.get "price" = .number (.finite q)) →
      step R s env req = (⟨400, .message "Invalid product"⟩, s) ∧
        ∀ rest, successfulCreates R s ((env, req) :: rest) = successfulCreates R s rest) := by
  have hprod : (run R State.init trace).products =
      (successfulCreates R State.init trace).map productOf := by
    rw [run_products]; simp [State.init]
  refine ⟨hprod, by rw [hprod, List.length_map], ?_, ?_, ?_⟩
  · intro env req hr
    simp [step, hr, hprod]
  · intro s env req hr hc
    exact (step_product_created R s env req hr hc).2.2.2
  · intro s env req hr hauth hbad
    have h : step R s env req = (⟨400, .message "Invalid product"⟩, s) := by
      apply step_invalid_product R s env req hr hauth
      rcases hbad with h | ⟨q, hq, hp⟩
      · exact Or.inl h
      · exact Or.inr (by rw [hp]; exact leZero_finite_nonpos R q hq)
    refine ⟨h, ?_⟩
    intro rest
    simp [successfulCreates, h]

theorem catalog_listing_witness :
    step exampleRuntime (run exampleRuntime State.init [(env0, productNegative), (env1, productWidget)])
        env1 listRequest =
      (⟨200, .products ((successfulCreates exampleRuntime State.init
          [(env0, productNegative), (env1, productWidget)]).map productOf)⟩,
        run exampleRuntime State.init [(env0, productNegative), (env1, productWidget)]) :=
  (catalog_listing exampleRuntime [(env0, productNegative), (env1, productWidget)]).2.2.1
    env1 listRequest rfl

/-! ## C9: order validation -/

/-- C9, as stated, fails: from the empty state, an order of a role-user caller
without a `quantity` and one for one and a half items, each under a fresh key,
are both answered 201, and the second is stored with quantity 3/2. -/
theorem order_validation_counterexample :
    (step exampleRuntime State.init env0 orderNoQuantity).1 =
      ⟨201, .order ⟨"id-0", .number (.finite 2), .string "p1", .undefined, "PAID"⟩⟩ ∧
    step exampleRuntime State.init env0 orderHalf =
      (⟨201, .order ⟨"id-0", .number (.finite 2), .string "p1", .number (.finite (3 / 2)), "PAID"⟩⟩,
        { products := [],
          orders := [⟨"id-0", .number (.finite 2), .string "p1", .number (.finite (3 / 2)), "PAID"⟩],
          idempotencyKeys := ["k4"] }) ∧
    JSNum.isInteger (.finite (3 / 2)) = false := by
  refine ⟨?_, ?_, ?_⟩
  · rw [step_valid_order exampleRuntime State.init env0 orderNoQuantity "k3"
      [("id", .number (.finite 2)), ("role", .string "user")] (by decide) rfl rfl
      (by simp [State.init]) (userBearer_authenticate 10 (by decide)) rfl rfl rfl]
    rfl
  · rw [step_valid_order exampleRuntime State.init env0 orderHalf "k4"
      [("id", .number (.finite 2)), ("role", .string "user")] (by decide) rfl rfl
      (by simp [State.init]) (userBearer_authenticate 10 (by decide)) rfl rfl
      (leZero_finite_pos exampleRuntime (3 / 2) (by norm_num))]
    rfl
  · simp [JSNum.isInteger]
    norm_num

/-- C9, amended. For every state and every `POST /orders` request of an
authenticated role-user caller under a non-empty key not yet seen, the answer
is 400 "Invalid order" and the state is unchanged whenever `productId` is falsy
(absent, in particular) or the comparison `quantity <= 0` holds (for a number at
most zero, in particular). Consequently every order stored after any sequence
of requests from the empty state has a truthy `productId` and a quantity for
which `quantity <= 0` is false: strictly positive whenever it is a finite
number. -/
theorem order_validation (R : Runtime) (trace : List (Env × Request)) :
    (∀ (s : State) (env : Env) (req : Request) (k : String), k ≠ "" →
      k ∉ s.idempotencyKeys → carriesKey k req →
      authenticatedAs R env req "user" →
      (truthy (req.body.get "productId") = false ∨
        (∃ q : ℚ, q ≤ 0 ∧ req.body.get "quantity" = .number (.finite q)) ∨
        leZero R (req.body.get "quantity") = some true) →
      step R s env req = (⟨400, .message "Invalid order"⟩, s)) ∧
    (∀ o ∈ (run R State.init trace).orders,
      truthy o.productId = true ∧ o.productId ≠ .undefined ∧
      leZero R o.quantity = some false ∧
      ∀ q : ℚ, o.quantity = .number (.finite q) → 0 < q) := by
  constructor
  · intro s env req k hk hfresh hcarries hauth hbad
    apply step_invalid_order R s env req k hk hcarries.1 hcarries.2 hfresh hauth
    rcases hbad with h | ⟨q, hq, hp⟩ | h
    · exact Or.inl h
    · exact Or.inr (by rw [hp]; exact leZero_finite_nonpos R q hq)
    · exact Or.inr h
  · intro o ho
    obtain ⟨before, env, req, after, _, hr, hs⟩ := order_origin R trace o ho
    have hc : (step R (run R State.init before) env req).1.status = 201 := by rw [hs]
    obtain ⟨user, key, _, _, _, _, _, hp, hq, heq⟩ := step_order_created R _ env req hr hc
    rw [heq] at hs
    cases hs
    refine ⟨hp, ?_, hq, ?_⟩
    · intro h; simp only at h; rw [h] at hp; cases hp
    · intro q hpq
      simp only at hpq
      rw [hpq] at hq
      by_contra hle
      rw [leZero_finite_nonpos R q (not_lt.1 hle)] at hq
      cases hq

theorem order_validation_witness :
    step exampleRuntime State.init env0 orderZero =
      (⟨400, .message "Invalid order"⟩, State.init) :=
  (order_validation exampleRuntime []).1 State.init env0 orderZero "k5" (by decide)
    (by simp [State.init]) ⟨rfl, rfl⟩
    (userBearer_authenticated orderZero env0 rfl (by decide))
    (Or.inr (Or.inl ⟨0, le_refl 0, rfl⟩))

/-! ## C10: login -/

/-- C10. For every login request whose `email` and `password` are both truthy:
the answer is 200 exactly when some seeded user has exactly that email and that
password; the token of the 200 answer is `jwt.sign` of `{ id, role }` of the
first such user of the seeded list, with a one-hour expiry, and (when the wire
form of that token reads back) every verification before the expiry yields
that payload; in every other case the answer is 401 "Login failed", without a
token. Login never changes the state. `admin@test.com`/`1234` signs id 1 with
role admin, and `user@test.com`/`1234` signs id 2 with role user. -/
theorem login_correct (R : Runtime) (s : State) (env : Env) (req : Request)
    (hroute : req.route = .login)
    (he : truthy (req.body.get "email") = true)
    (hp : truthy (req.body.get "password") = true) :
    ((step R s env req).1.status = 200 ↔
      ∃ u ∈ users, req.body.get "email" = .string u.email ∧
        req.body.get "password" = .string u.password) ∧
    (∀ earlier u later, users = earlier ++ u :: later →
      (∀ x ∈ earlier, ¬ (req.body.get "email" = .string x.email ∧
        req.body.get "password" = .string x.password)) →
      req.body.get "email" = .string u.email →
      req.body.get "password" = .string u.password →
      step R s env req =
        (⟨200, .token (jwtSign R (tokenPayload u) JWT_SECRET 3600 env.now)⟩, s) ∧
      (tokenPayload u).get "id" = .number (.finite u.id) ∧
      (tokenPayload u).get "role" = .string u.role ∧
      (R.decode (jwtSign R (tokenPayload u) JWT_SECRET 3600 env.now) =
          some ⟨tokenPayload u, env.now, env.now + 3600, JWT_SECRET⟩ →
        ∀ t, t < env.now + 3600 →
          jwtVerify R (jwtSign R (tokenPayload u) JWT_SECRET 3600 env.now) JWT_SECRET t =
            some (tokenPayload u))) ∧
    ((¬ ∃ u ∈ users, req.body.get "email" = .string u.email ∧
        req.body.get "password" = .string u.password) →
      step R s env req = (⟨401, .message "Login failed"⟩, s)) ∧
    (req.body.get "email" = .string "admin@test.com" →
      req.body.get "password" = .string "1234" →
      step R s env req =
        (⟨200, .token (jwtSign R [("id", .number (.finite 1)), ("role", .string "admin")]
          JWT_SECRET 3600 env.now)⟩, s)) ∧
    (req.body.get "email" = .string "user@test.com" →
      req.body.get "password" = .string "1234" →
      step R s env req =
        (⟨200, .token (jwtSign R [("id", .number (.finite 2)), ("role", .string "user")]
          JWT_SECRET 3600 env.now)⟩, s)) := by
  have hstep : step R s env req =
      (match users.find? (credentialsMatch (req.body.get "email") (req.body.get "password")) with
        | none => ⟨401, .message "Login failed"⟩
        | some user => ⟨200, .token (jwtSign R (tokenPayload user) JWT_SECRET 3600 env.now)⟩,
        s) := by
    simp [step, hroute, login, he, hp]
  have hfirst : ∀ earlier u later, users = earlier ++ u :: later →
      (∀ x ∈ earlier, ¬ (req.body.get "email" = .string x.email ∧
        req.body.get "password" = .string x.password)) →
      req.body.get "email" = .string u.email →
      req.body.get "password" = .string u.password →
      step R s env req =
        (⟨200, .token (jwtSign R (tokenPayload u) JWT_SECRET 3600 env.now)⟩, s) := by
    intro earlier u later hu hearlier hemail hpass
    have hfind : users.find? (credentialsMatch (req.body.get "email") (req.body.get "password"))
        = some u := by
      rw [List.find?_eq_some]
      refine ⟨(credentialsMatch_iff _ _ _).2 ⟨hemail, hpass⟩, earlier, later, hu, ?_⟩
      intro x hx
      have := hearlier x hx
      rw [← credentialsMatch_iff] at this
      simpa using this
    rw [hstep, hfind]
  refine ⟨?_, ?_, ?_, ?_, ?_⟩
  · rw [hstep]
    cases hfind : users.find? (credentialsMatch (req.body.get "email") (req.body.get "password")) with
    | none =>
      rw [List.find?_eq_none] at hfind
      constructor
      · intro h; simp at h
      · rintro ⟨u, hu, h₁, h₂⟩
        exact absurd ((credentialsMatch_iff _ _ _).2 ⟨h₁, h₂⟩) (hfind u hu)
    | some u =>
      constructor
      · intro _
        have hm := List.find?_some hfind
        exact ⟨u, List.mem_of_find?_eq_some hfind, (credentialsMatch_iff _ _ _).1 hm⟩
      · intro _; rfl
  · intro earlier u later hu hearlier hemail hpass
    refine ⟨hfirst earlier u later hu hearlier hemail hpass, rfl, rfl, ?_⟩
    intro hdecode t ht
    have hlt : ¬ env.now + 3600 < t := by omega
    simp [jwtVerify, hdecode, hlt]
  · intro hnone
    have hfind : users.find? (credentialsMatch (req.body.get "email") (req.body.get "password"))
        = none := by
      rw [List.find?_eq_none]
      intro u hu hm
      exact hnone ⟨u, hu, (credentialsMatch_iff _ _ _).1 hm⟩
    rw [hstep, hfind]
  · intro hemail hpass
    exact hfirst [] seededAdmin [seededUser] rfl (by simp) hemail hpass
  · intro hemail hpass
    refine hfirst [seededAdmin] seededUser [] rfl ?_ hemail hpass
    intro x hx
    rw [List.mem_singleton] at hx
    rw [hx, hemail]
    simp [seededAdmin]

theorem login_correct_witness :
    step exampleRuntime State.init env0 loginAdmin =
      (⟨200, .token (jwtSign exampleRuntime (tokenPayload seededAdmin) JWT_SECRET 3600 env0.now)⟩,
        State.init) ∧
    ∀ t, t < env0.now + 3600 →
      jwtVerify exampleRuntime
        (jwtSign exampleRuntime (tokenPayload seededAdmin) JWT_SECRET 3600 env0.now) JWT_SECRET t =
        some (tokenPayload seededAdmin) :=
  ⟨((login_correct exampleRuntime State.init env0 loginAdmin rfl rfl rfl).2.1
      [] seededAdmin [seededUser] rfl (by simp) rfl rfl).1,
    ((login_correct exampleRuntime State.init env0 loginAdmin rfl rfl rfl).2.1
      [] seededAdmin [seededUser] rfl (by simp) rfl rfl).2.2.2
      (by
        simp [jwtSign, exampleRuntime, exampleEncode, exampleDecode, authorize, tokenPayload,
          seededAdmin, JSObject.get, List.lookup, exampleId, env0, JWT_SECRET,
          List.count_replicate])⟩

/-! ## C11: a failed login does not say which credential is wrong -/

/-- A login with truthy credentials that no seeded user has is answered 401
"Login failed" and changes nothing. -/
theorem login_no_match (R : Runtime) (s : State) (env : Env) (req : Request)
    (hroute : req.route = .login)
    (he : truthy (req.body.get "email") = true)
    (hp : truthy (req.body.get "password") = true)
    (hnone : ∀ u ∈ users, ¬ (req.body.get "email" = .string u.email ∧
      req.body.get "password" = .string u.password)) :
    step R s env req = (⟨401, .message "Login failed"⟩, s) := by
  have hfind : users.find? (credentialsMatch (req.body.get "email") (req.body.get "password"))
      = none := by
    rw [List.find?_eq_none]
    intro u hu hm
    exact hnone u hu ((credentialsMatch_iff _ _ _).1 hm)
  simp [step, hroute, login, he, hp, hfind]

theorem truthy_string (e : String) (h : e ≠ "") : truthy (.string e) = true := by
  simp [truthy, h]

/-- C11. For every non-empty email `e₁` of no seeded user, every seeded email
`e₂`, and all non-empty passwords `p₁`, `p₂` where `p₂` is not the password of
`e₂`: the logins `(e₁, p₁)` and `(e₂, p₂)` get the same response, status 401
with message "Login failed", in any states, and neither changes its state. -/
theorem login_failure_uniform (R : Runtime) (s₁ s₂ : State) (env₁ env₂ : Env)
    (req₁ req₂ : Request) (e₁ p₁ e₂ p₂ : String)
    (hr₁ : req₁.route = .login) (hr₂ : req₂.route = .login)
    (hb₁ : req₁.body.get "email" = .string e₁ ∧ req₁.body.get "password" = .string p₁)
    (hb₂ : req₂.body.get "email" = .string e₂ ∧ req₂.body.get "password" = .string p₂)
    (he₁ : e₁ ≠ "") (hp₁ : p₁ ≠ "") (hp₂ : p₂ ≠ "")
    (hunknown : ∀ u ∈ users, u.email ≠ e₁)
    (hseeded : ∃ u ∈ users, u.email = e₂)
    (hwrong : ∀ u ∈ users, u.email = e₂ → u.password ≠ p₂) :
    (step R s₁ env₁ req₁).1 = (step R s₂ env₂ req₂).1 ∧
    (step R s₁ env₁ req₁).1 = ⟨401, .message "Login failed"⟩ ∧
    (step R s₂ env₂ req₂).1 = ⟨401, .message "Login failed"⟩ ∧
    (step R s₁ env₁ req₁).2 = s₁ ∧ (step R s₂ env₂ req₂).2 = s₂ := by
  have he₂ : e₂ ≠ "" := by
    obtain ⟨u, hu, rfl⟩ := hseeded
    simp only [users, List.mem_cons, List.mem_singleton, List.not_mem_nil, or_false] at hu
    rcases hu with rfl | rfl <;> decide
  have h₁ : step R s₁ env₁ req₁ = (⟨401, .message "Login failed"⟩, s₁) := by
    apply login_no_match R s₁ env₁ req₁ hr₁
    · rw [hb₁.1]; exact truthy_string e₁ he₁
    · rw [hb₁.2]; exact truthy_string p₁ hp₁
    · rintro u hu ⟨hemail, _⟩
      rw [hb₁.1] at hemail
      cases hemail
      exact hunknown u hu rfl
  have h₂ : step R s₂ env₂ req₂ = (⟨401, .message "Login failed"⟩, s₂) := by
    apply login_no_match R s₂ env₂ req₂ hr₂
    · rw [hb₂.1]; exact truthy_string e₂ he₂
    · rw [hb₂.2]; exact truthy_string p₂ hp₂
    · rintro u hu ⟨hemail, hpass⟩
      rw [hb₂.1] at hemail
      rw [hb₂.2] at hpass
      cases hemail
      cases hpass
      exact hwrong u hu rfl rfl
  rw [h₁, h₂]
  exact ⟨rfl, rfl, rfl, rfl, rfl⟩

theorem login_failure_uniform_witness :
    (step exampleRuntime State.init env0 loginUnknownEmail).1 =
      (step exampleRuntime State.init env1 loginWrongPassword).1 ∧
    (step exampleRuntime State.init env0 loginUnknownEmail).1 =
      ⟨401, .message "Login failed"⟩ ∧
    (step exampleRuntime State.init env1 loginWrongPassword).1 =
      ⟨401, .message "Login failed"⟩ ∧
    (step exampleRuntime State.init env0 loginUnknownEmail).2 = State.init ∧
    (step exampleRuntime State.init env1 loginWrongPassword).2 = State.init :=
  login_failure_uniform exampleRuntime State.init State.init env0 env1
    loginUnknownEmail loginWrongPassword "nobody@test.com" "1234" "admin@test.com" "4321"
    rfl rfl ⟨rfl, rfl⟩ ⟨rfl, rfl⟩ (by decide) (by decide) (by decide)
    (by simp [users]) ⟨seededAdmin, by simp [users, seededAdmin], rfl⟩ (by simp [users])

/-! ## C12: token expiry -/

/-- A guarded route whose `authenticate` answers 401 returns that answer and
keeps the state. -/
theorem step_of_authenticate_error (R : Runtime) (s : State) (env : Env) (req : Request)
    (res : Response)
    (hroute : req.route = .createProduct ∨ req.route = .placeOrder)
    (h : authenticate R env.now req.authorization = .error res) :
    step R s env req = (res, s) := by
  rcases hroute with hr | hr <;> simp [step, hr, guarded, h]

/-- C12. Every token that login issues is the wire form of a token whose
expiry is exactly 3600 seconds after its time of issue. For every token with
an expiry and every verification time later than that expiry, `jwt.verify`
fails under any secret (so whatever the signature), and a request to a guarded
route carrying it is answered 401 with the state unchanged. A token rejected
at one time is rejected at every later time. -/
theorem token_expiry (R : Runtime) :
    (∀ (s : State) (env : Env) (req : Request) (tok : String), req.route = .login →
      (step R s env req).1.body = .token tok →
      ∃ u ∈ users, ∃ d : TokenData, tok = R.encode d ∧ d.claims = tokenPayload u ∧
        d.iat = env.now ∧ d.exp = d.iat + 3600 ∧ d.key = JWT_SECRET) ∧
    (∀ (token : String) (d : TokenData) (secret : String) (t : Nat),
      R.decode token = some d → d.exp < t → jwtVerify R token secret t = none) ∧
    (∀ (s : State) (env : Env) (req : Request) (header token : String) (d : TokenData),
      req.route = .createProduct ∨ req.route = .placeOrder →
      req.authorization = some header → secondPart header = some token →
      R.decode token = some d → d.exp < env.now →
      (step R s env req).1.status = 401 ∧ (step R s env req).2 = s) ∧
    (∀ (token secret : String) (t t' : Nat), jwtVerify R token secret t = none → t ≤ t' →
      jwtVerify R token secret t' = none) := by
  have hexpired : ∀ (token : String) (d : TokenData) (secret : String) (t : Nat),
      R.decode token = some d → d.exp < t → jwtVerify R token secret t = none := by
    intro token d secret t hd hlt
    unfold jwtVerify
    by_cases hk : d.key = secret <;> simp [hd, hk, hlt]
  refine ⟨?_, hexpired, ?_, ?_⟩
  · intro s env req tok hroute hbody
    simp only [step, hroute, login] at hbody
    split at hbody
    · cases hbody
    · cases hfind : users.find?
          (credentialsMatch (req.body.get "email") (req.body.get "password")) with
      | none => rw [hfind] at hbody; cases hbody
      | some u =>
        rw [hfind] at hbody
        simp only [ResBody.token.injEq] at hbody
        exact ⟨u, List.mem_of_find?_eq_some hfind,
          ⟨tokenPayload u, env.now, env.now + 3600, JWT_SECRET⟩, hbody.symm, rfl, rfl, rfl, rfl⟩
  · intro s env req header token d hroute hauth hsecond hd hlt
    have hv := hexpired token d JWT_SECRET env.now hd hlt
    have ha : ∃ res, res.status = 401 ∧
        authenticate R env.now req.authorization = .error res := by
      by_cases hempty : token = ""
      · exact ⟨⟨401, .message "No token"⟩, rfl, by simp [authenticate, hauth, hsecond, hempty]⟩
      · exact ⟨⟨401, .message "Invalid token"⟩, rfl,
          by simp [authenticate, hauth, hsecond, hempty, hv]⟩
    obtain ⟨res, hres, ha⟩ := ha
    rw [step_of_authenticate_error R s env req res hroute ha]
    exact ⟨hres, rfl⟩
  · intro token secret t t' hnone hle
    unfold jwtVerify at hnone ⊢
    cases hd : R.decode token with
    | none => simp
    | some d =>
      rw [hd] at hnone
      by_cases hk : d.key = secret
      · by_cases hlt : d.exp < t
        · have hlt' : d.exp < t' := by omega
          simp [hk, hlt']
        · simp [hk, hlt] at hnone
      · simp [hk]

theorem token_expiry_witness :
    jwtVerify exampleRuntime "Usnn" JWT_SECRET 3601 = none ∧
    (step exampleRuntime State.init envLate orderK1).1.status = 401 ∧
    (step exampleRuntime State.init envLate orderK1).2 = State.init :=
  ⟨(token_expiry exampleRuntime).2.1 "Usnn" _ JWT_SECRET 3601 exampleDecode_user (by decide),
    (token_expiry exampleRuntime).2.2.1 State.init envLate orderK1 "Bearer Usnn" "Usnn" _
      (Or.inr rfl) rfl (by decide) exampleDecode_user (by decide)⟩

/-! ## C13: the order of the checks of an order request -/

/-- The answer of the order handler to a role-user caller for the two
worked bodies that the three listed checks let through. -/
theorem step_orderEmptyProductId :
    step exampleRuntime State.init env0 orderEmptyProductId =
      (⟨400, .message "Invalid order"⟩, State.init) := by
  have ha := userBearer_authenticate 10 (by decide)
  simp [step, orderEmptyProductId, env0, guarded, ha, authorize, JSObject.get, List.lookup,
    placeOrder, truthy, State.init]

/-- C13, as stated, fails. From the empty state and under fresh non-empty
keys: an order whose `productId` is present but the empty string, with quantity
1, is answered 400 "Invalid order", not 201; and an order with a `productId`
and the quantity `{ "toString": 1 }`, for which `quantity <= 0` does not hold
but throws, is answered 500, neither 400 nor 201. -/
theorem order_of_checks_counterexample :
    (orderEmptyProductId.body.get "productId" = .string "" ∧
      orderEmptyProductId.body.get "quantity" = .number (.finite 1) ∧
      step exampleRuntime State.init env0 orderEmptyProductId =
        (⟨400, .message "Invalid order"⟩, State.init)) ∧
    (truthy (orderObjectQuantity.body.get "productId") = true ∧
      leZero exampleRuntime (orderObjectQuantity.body.get "quantity") = none ∧
      step exampleRuntime State.init env0 orderObjectQuantity =
        (⟨500, .message "Internal Server Error"⟩, State.init)) := by
  refine ⟨⟨rfl, rfl, step_orderEmptyProductId⟩, rfl, rfl, ?_⟩
  have ha := userBearer_authenticate 10 (by decide)
  have hq : leZero exampleRuntime
      (JSValue.object [("toString", JSValue.number (JSNum.finite 1))]) = none := rfl
  simp [step, orderObjectQuantity, env0, guarded, ha, authorize, JSObject.get, List.lookup,
    placeOrder, truthy, State.init, hq]

/-- C13, amended. For an authenticated role-user caller the answer of
`POST /orders` is decided by the first failing check in the order: (1) key
absent or empty, 400 "Missing Idempotency-Key"; (2) key already in the ledger,
409 "Duplicate request"; (3) `productId` falsy or `quantity <= 0` evaluating to
true, 400 "Invalid order"; and when all three pass and `quantity <= 0`
evaluates to false, 201. The first two answers do not depend on the body; the
refusals leave the state unchanged. -/
theorem order_of_checks (R : Runtime) (s : State) (env : Env) (req : Request)
    (hroute : req.route = .placeOrder)
    (hauth : authenticatedAs R env req "user") :
    ((req.idempotencyKey = none ∨ req.idempotencyKey = some "") →
      step R s env req = (⟨400, .message "Missing Idempotency-Key"⟩, s)) ∧
    (∀ k, req.idempotencyKey = some k → k ≠ "" → k ∈ s.idempotencyKeys →
      step R s env req = (⟨409, .message "Duplicate request"⟩, s)) ∧
    (∀ k, req.idempotencyKey = some k → k ≠ "" → k ∉ s.idempotencyKeys →
      (truthy (req.body.get "productId") = false ∨
        leZero R (req.body.get "quantity") = some true) →
      step R s env req = (⟨400, .message "Invalid order"⟩, s)) ∧
    (∀ k, req.idempotencyKey = some k → k ≠ "" → k ∉ s.idempotencyKeys →
      truthy (req.body.get "productId") = true →
      leZero R (req.body.get "quantity") = some false →
      (step R s env req).1.status = 201) := by
  refine ⟨?_, ?_, ?_, ?_⟩
  · intro hkey
    obtain ⟨user, _, _, hg⟩ := guarded_of_authenticated R s env req "user"
      (fun user => placeOrder R s env.uuid user req.idempotencyKey req.body) hauth
    simp only [step, hroute, hg]
    rcases hkey with hk | hk <;> simp [placeOrder, hk]
  · intro k hkey hk hseen
    exact step_duplicate R s env req k hk hroute hkey hseen hauth
  · intro k hkey hk hfresh hbad
    exact step_invalid_order R s env req k hk hroute hkey hfresh hauth hbad
  · intro k hkey hk hfresh hp hq
    obtain ⟨user, hu, hr⟩ := hauth
    rw [step_valid_order R s env req k user hk hroute hkey hfresh hu hr hp hq]

theorem order_of_checks_witness :
    step exampleRuntime stateSeenK1 env0 orderMalformedK1 =
      (⟨409, .message "Duplicate request"⟩, stateSeenK1) :=
  (order_of_checks exampleRuntime stateSeenK1 env0 orderMalformedK1 rfl
    (userBearer_authenticated orderMalformedK1 env0 rfl (by decide))).2.1
    "k1" rfl (by decide) (by simp [stateSeenK1])

/-! ## C14: what a successful order request does -/

/-- C14, as stated, fails. From the empty state, a well-formed order of a
role-user caller whose key is the empty string (a key that is not in the
ledger) is answered 400 "Missing Idempotency-Key"; and one under a fresh
non-empty key whose `productId` is present but the empty string, with quantity
1, is answered 400 "Invalid order". Neither stores an order. -/
theorem order_postcondition_counterexample :
    ("" ∉ State.init.idempotencyKeys ∧
      step exampleRuntime State.init env0 orderEmptyKey =
        (⟨400, .message "Missing Idempotency-Key"⟩, State.init)) ∧
    (orderEmptyProductId.body.get "productId" = .string "" ∧
      (step exampleRuntime State.init env0 orderEmptyProductId).1.status = 400 ∧
      (step exampleRuntime State.init env0 orderEmptyProductId).2.orders = []) := by
  refine ⟨⟨by simp [State.init], ?_⟩, rfl, ?_, ?_⟩
  · have ha := userBearer_authenticate 10 (by decide)
    simp [step, orderEmptyKey, env0, guarded, ha, authorize, JSObject.get, List.lookup,
      placeOrder, State.init]
  · rw [step_orderEmptyProductId]
  · rw [step_orderEmptyProductId]; rfl

/-- C14, amended. For every state, every authenticated role-user identity,
every non-empty key `k` not in the ledger, and every body with a truthy
`productId` and a quantity that is a number above zero, the answer is 201 with
an order that has the `productId` and `quantity` of the body, status `PAID`,
and the identity's `id` as `userId`; the new order list is the old one with
that order appended, the new ledger is the old one with `k` added, and the
catalog is unchanged. -/
theorem order_postcondition (R : Runtime) (s : State) (env : Env) (req : Request)
    (k : String) (user : JSObject)
    (hk : k ≠ "") (hroute : req.route = .placeOrder) (hkey : req.idempotencyKey = some k)
    (hfresh : k ∉ s.idempotencyKeys)
    (hauth : authenticate R env.now req.authorization = .ok user)
    (hrole : user.get "role" = .string "user")
    (hp : truthy (req.body.get "productId") = true)
    (hq : (∃ q : ℚ, 0 < q ∧ req.body.get "quantity" = .number (.finite q)) ∨
      req.body.get "quantity" = .number (.inf false)) :
    ∃ o : Order, (step R s env req).1 = ⟨201, .order o⟩ ∧
      o.productId = req.body.get "productId" ∧ o.quantity = req.body.get "quantity" ∧
      o.status = "PAID" ∧ o.userId = user.get "id" ∧
      (step R s env req).2.orders = s.orders ++ [o] ∧
      (step R s env req).2.idempotencyKeys = s.idempotencyKeys ++ [k] ∧
      (∀ x, x ∈ (step R s env req).2.idempotencyKeys ↔ x ∈ s.idempotencyKeys ∨ x = k) ∧
      (step R s env req).2.products = s.products := by
  have hle : leZero R (req.body.get "quantity") = some false := by
    rcases hq with ⟨q, hpos, hq⟩ | hq
    · rw [hq]; exact leZero_finite_pos R q hpos
    · rw [hq]; rfl
  rw [step_valid_order R s env req k user hk hroute hkey hfresh hauth hrole hp hle]
  refine ⟨_, rfl, rfl, rfl, rfl, rfl, rfl, rfl, ?_, rfl⟩
  intro x
  simp

theorem order_postcondition_witness :
    ∃ o : Order, (step exampleRuntime State.init env0 orderK1).1 = ⟨201, .order o⟩ ∧
      o.productId = orderK1.body.get "productId" ∧ o.quantity = orderK1.body.get "quantity" ∧
      o.status = "PAID" ∧
      o.userId = JSObject.get [("id", .number (.finite 2)), ("role", .string "user")] "id" ∧
      (step exampleRuntime State.init env0 orderK1).2.orders = State.init.orders ++ [o] ∧
      (step exampleRuntime State.init env0 orderK1).2.idempotencyKeys =
        State.init.idempotencyKeys ++ ["k1"] ∧
      (∀ x, x ∈ (step exampleRuntime State.init env0 orderK1).2.idempotencyKeys ↔
        x ∈ State.init.idempotencyKeys ∨ x = "k1") ∧
      (step exampleRuntime State.init env0 orderK1).2.products = State.init.products :=
  order_postcondition exampleRuntime State.init env0 orderK1 "k1"
    [("id", .number (.finite 2)), ("role", .string "user")] (by decide) rfl rfl
    (by simp [State.init]) (userBearer_authenticate 10 (by decide)) rfl rfl
    (Or.inl ⟨2, by norm_num, rfl⟩)

/-! ## C15: the stores only grow -/

/-- The three possible effects of a request on the state: none; one product
appended, on a 201 to a verified admin; or one order appended and its fresh key
added, on a 201 to a verified role-user caller. -/
theorem step_effect (R : Runtime) (s : State) (env : Env) (req : Request) :
    (step R s env req).2 = s ∨
    ((step R s env req).1.status = 201 ∧ req.route = .createProduct ∧
      authenticatedAs R env req "admin" ∧
      ∃ p, (step R s env req).2 = { s with products := s.products ++ [p] }) ∨
    ((step R s env req).1.status = 201 ∧ req.route = .placeOrder ∧
      authenticatedAs R env req "user" ∧
      ∃ key o, carriesKey key req ∧ key ∉ s.idempotencyKeys ∧
        (step R s env req).2 = { s with idempotencyKeys := s.idempotencyKeys ++ [key],
                                        orders := s.orders ++ [o] }) := by
  by_cases hc : (step R s env req).1.status = 201
  · rcases step_created_route R s env req hc with hr | hr
    · obtain ⟨⟨user, hu, hz⟩, _, _, heq⟩ := step_product_created R s env req hr hc
      obtain ⟨r, hr', hrole⟩ := (authorize_eq_true_iff _ _).1 hz
      rw [List.mem_singleton] at hr'
      subst hr'
      exact Or.inr (Or.inl ⟨hc, hr, ⟨user, hu, hrole⟩, _, by rw [heq]⟩)
    · obtain ⟨user, key, hu, hz, hkey, _, hfresh, _, _, heq⟩ :=
        step_order_created R s env req hr hc
      obtain ⟨r, hr', hrole⟩ := (authorize_eq_true_iff _ _).1 hz
      rw [List.mem_singleton] at hr'
      subst hr'
      exact Or.inr (Or.inr ⟨hc, hr, ⟨user, hu, hrole⟩, key, _, ⟨hr, hkey⟩, hfresh,
        by rw [heq]⟩)
  · exact Or.inl (step_not_created R s env req hc)

theorem run_cons (R : Runtime) (s : State) (env : Env) (req : Request)
    (t : List (Env × Request)) :
    run R s ((env, req) :: t) = run R (step R s env req).2 t := rfl

/-- C15. For every state and every request of any kind, the product list
before is a prefix of the product list after, the order list before is a prefix
of the order list after, and every key seen before is seen after; the same
holds across any sequence of requests. The product list changes only on a 201
answer of `POST /products` to a verified admin, and the order list only on a
201 answer of `POST /orders` to a verified role-user caller. -/
theorem stores_append_only (R : Runtime) (s : State) (env : Env) (req : Request) :
    s.products <+: (step R s env req).2.products ∧
    s.orders <+: (step R s env req).2.orders ∧
    s.idempotencyKeys ⊆ (step R s env req).2.idempotencyKeys ∧
    ((step R s env req).2.products ≠ s.products →
      (step R s env req).1.status = 201 ∧ req.route = .createProduct ∧
        authenticatedAs R env req "admin") ∧
    ((step R s env req).2.orders ≠ s.orders →
      (step R s env req).1.status = 201 ∧ req.route = .placeOrder ∧
        authenticatedAs R env req "user") ∧
    (∀ trace : List (Env × Request),
      s.products <+: (run R s trace).products ∧ s.orders <+: (run R s trace).orders ∧
        s.idempotencyKeys ⊆ (run R s trace).idempotencyKeys) := by
  have hone : ∀ (s : State) (env : Env) (req : Request),
      s.products <+: (step R s env req).2.products ∧
      s.orders <+: (step R s env req).2.orders ∧
      s.idempotencyKeys ⊆ (step R s env req).2.idempotencyKeys := by
    intro s env req
    rcases step_effect R s env req with h | ⟨_, _, _, p, h⟩ | ⟨_, _, _, key, o, _, _, h⟩
    · rw [h]
      exact ⟨List.prefix_refl _, List.prefix_refl _, List.Subset.refl _⟩
    · rw [h]
      exact ⟨List.prefix_append _ _, List.prefix_refl _, List.Subset.refl _⟩
    · rw [h]
      exact ⟨List.prefix_refl _, List.prefix_append _ _, List.subset_append_left _ _⟩
  refine ⟨(hone s env req).1, (hone s env req).2.1, (hone s env req).2.2, ?_, ?_, ?_⟩
  · intro hne
    rcases step_effect R s env req with h | ⟨hc, hr, ha, _⟩ | ⟨_, _, _, key, o, _, _, h⟩
    · rw [h] at hne; exact absurd rfl hne
    · exact ⟨hc, hr, ha⟩
    · rw [h] at hne; exact absurd rfl hne
  · intro hne
    rcases step_effect R s env req with h | ⟨_, _, _, p, h⟩ | ⟨hc, hr, ha, _⟩
    · rw [h] at hne; exact absurd rfl hne
    · rw [h] at hne; exact absurd rfl hne
    · exact ⟨hc, hr, ha⟩
  · intro trace
    induction trace generalizing s with
    | nil => exact ⟨List.prefix_refl _, List.prefix_refl _, List.Subset.refl _⟩
    | cons x t ih =>
      obtain ⟨env', req'⟩ := x
      rw [run_cons]
      obtain ⟨h₁, h₂, h₃⟩ := hone s env' req'
      obtain ⟨i₁, i₂, i₃⟩ := ih (step R s env' req').2
      exact ⟨h₁.trans i₁, h₂.trans i₂, List.Subset.trans h₃ i₃⟩

theorem stores_append_only_witness :
    (step exampleRuntime State.init env0 orderK1).1.status = 201 ∧
      orderK1.route = .placeOrder ∧ authenticatedAs exampleRuntime env0 orderK1 "user" :=
  (stores_append_only exampleRuntime State.init env0 orderK1).2.2.2.2.1
    (by rw [step_orderK1]; simp [State.init])

/-! ## C16: the catalog plays no part in an order -/

/-- The order handler reads only the ledger and the order list: with another
product list it gives the same answer and the same new orders and ledger, and
hands that product list back. -/
theorem placeOrder_products (R : Runtime) (s : State) (ps : List Product) (uuid : String)
    (user : JSObject) (idempotencyKey : Option String) (body : JSObject) :
    placeOrder R { s with products := ps } uuid user idempotencyKey body =
      ((placeOrder R s uuid user idempotencyKey body).1,
        { (placeOrder R s uuid user idempotencyKey body).2 with products := ps }) := by
  unfold placeOrder
  cases idempotencyKey with
  | none => rfl
  | some key =>
    by_cases hk : key = ""
    · simp [hk]
    · by_cases hm : key ∈ s.idempotencyKeys
      · simp [hk, hm]
      · by_cases hp : truthy (body.get "productId") = true
        · cases hq : leZero R (body.get "quantity") with
          | none => simp [hk, hm, hp, hq]
          | some b => cases b <;> simp [hk, hm, hp, hq]
        · simp [hk, hm, hp]

/-- C16. For any two states that differ only in their product lists and any
`POST /orders` request, the two runs give the same response (status and, on a
201, the same order) and the same resulting order list and ledger, and each
leaves its product list as it was. In particular a well-formed order under a
fresh key is answered 201 with an empty catalog, whatever its `productId`. -/
theorem order_ignores_catalog (R : Runtime) (s : State) (ps : List Product) (env : Env)
    (req : Request) (hroute : req.route = .placeOrder) :
    (step R { s with products := ps } env req).1 = (step R s env req).1 ∧
    (step R { s with products := ps } env req).2.orders = (step R s env req).2.orders ∧
    (step R { s with products := ps } env req).2.idempotencyKeys =
      (step R s env req).2.idempotencyKeys ∧
    (step R { s with products := ps } env req).2.products = ps ∧
    (step R s env req).2.products = s.products ∧
    (∀ (k : String) (user : JSObject), k ≠ "" → req.idempotencyKey = some k →
      k ∉ s.idempotencyKeys →
      authenticate R env.now req.authorization = .ok user →
      user.get "role" = .string "user" →
      truthy (req.body.get "productId") = true →
      leZero R (req.body.get "quantity") = some false →
      (step R { s with products := [] } env req).1.status = 201) := by
  have hpair : step R { s with products := ps } env req =
      ((step R s env req).1, { (step R s env req).2 with products := ps }) := by
    simp only [step, hroute, guarded]
    cases authenticate R env.now req.authorization with
    | error res => rfl
    | ok user =>
      by_cases hz : authorize ["user"] user = true
      · simp only [hz, if_true]
        exact placeOrder_products R s ps env.uuid user req.idempotencyKey req.body
      · simp [hz]
  have hsame : (step R s env req).2.products = s.products := by
    rcases step_effect R s env req with h | ⟨_, hr, _⟩ | ⟨_, _, _, key, o, _, _, h⟩
    · rw [h]
    · rw [hroute] at hr; cases hr
    · rw [h]
  refine ⟨by rw [hpair], by rw [hpair], by rw [hpair], by rw [hpair], hsame, ?_⟩
  intro k user hk hkey hfresh hu hrole hp hq
  rw [step_valid_order R { s with products := [] } env req k user hk hroute hkey hfresh hu hrole
    hp hq]

theorem order_ignores_catalog_witness :
    (step exampleRuntime { State.init with products := [] } env0 orderK1).1.status = 201 :=
  (order_ignores_catalog exampleRuntime State.init
      [⟨"id-7", .string "Widget", .number (.finite 10)⟩] env0 orderK1 rfl).2.2.2.2.2
    "k1" [("id", .number (.finite 2)), ("role", .string "user")] (by decide) rfl
    (by simp [State.init]) (userBearer_authenticate 10 (by decide)) rfl rfl
    (leZero_finite_pos exampleRuntime 2 (by norm_num))

/-! ## C17: a request that is not answered 201 changes nothing -/

/-- C17. For every state and every request to any route whose answer is not
201 (400, 401, 403, 409, 500, and the 200 of login and of the product listing),
the product list, the order list and the ledger after the request are those
before it; a sequence of requests none of which is answered 201 ends in the
state it started from. Login and the product listing never answer 201. -/
theorem rejected_requests_change_nothing (R : Runtime) (s : State) (env : Env) (req : Request)
    (hstatus : (step R s env req).1.status ≠ 201) :
    (step R s env req).2 = s ∧
    (step R s env req).2.products = s.products ∧
    (step R s env req).2.orders = s.orders ∧
    (step R s env req).2.idempotencyKeys = s.idempotencyKeys ∧
    (∀ (s' : State) (trace : List (Env × Request)),
      (∀ r ∈ responses R s' trace, r.status ≠ 201) → run R s' trace = s') ∧
    (∀ (s' : State) (env' : Env) (req' : Request),
      req'.route = .login ∨ req'.route = .listProducts →
      (step R s' env' req').1.status ≠ 201 ∧ (step R s' env' req').2 = s') := by
  have h := step_not_created R s env req hstatus
  refine ⟨h, by rw [h], by rw [h], by rw [h], ?_, ?_⟩
  · intro s' trace
    induction trace generalizing s' with
    | nil => intro _; rfl
    | cons x t ih =>
      obtain ⟨env', req'⟩ := x
      intro hall
      have hhead : (step R s' env' req').1.status ≠ 201 :=
        hall _ (by simp [responses])
      have hs := step_not_created R s' env' req' hhead
      rw [run_cons, hs]
      apply ih
      intro r hr
      apply hall
      simp only [responses, List.mem_cons]
      right
      rw [hs]
      exact hr
  · intro s' env' req' hr
    have hne : (step R s' env' req').1.status ≠ 201 := by
      intro hc
      rcases step_created_route R s' env' req' hc with h' | h' <;>
        rcases hr with hr | hr <;> rw [hr] at h' <;> cases h'
    exact ⟨hne, step_not_created R s' env' req' hne⟩

theorem rejected_requests_change_nothing_witness :
    (step exampleRuntime stateSeenK1 env0 orderMalformedK1).2 = stateSeenK1 :=
  (rejected_requests_change_nothing exampleRuntime stateSeenK1 env0 orderMalformedK1
    (by
      rw [step_duplicate exampleRuntime stateSeenK1 env0 orderMalformedK1 "k1" (by decide) rfl rfl
        (by simp [stateSeenK1]) (userBearer_authenticated orderMalformedK1 env0 rfl (by decide))]
      decide)).1

/-! ## C18: the ledger and the order list stay in step -/

/-- The ledger has no repeated key and as many keys as there are orders: this
is kept by every request. -/
theorem step_ledger_invariant (R : Runtime) (s : State) (env : Env) (req : Request)
    (hlen : s.orders.length = s.idempotencyKeys.length) (hnodup : s.idempotencyKeys.Nodup) :
    (step R s env req).2.orders.length = (step R s env req).2.idempotencyKeys.length ∧
      (step R s env req).2.idempotencyKeys.Nodup := by
  rcases step_effect R s env req with h | ⟨_, _, _, p, h⟩ | ⟨_, _, _, key, o, _, hfresh, h⟩
  · rw [h]; exact ⟨hlen, hnodup⟩
  · rw [h]; exact ⟨hlen, hnodup⟩
  · rw [h]
    refine ⟨by simp [hlen], ?_⟩
    simp only
    rw [List.nodup_append]
    refine ⟨hnodup, List.nodup_singleton key, ?_⟩
    intro a ha hb
    rw [List.mem_singleton] at hb
    subst hb
    exact hfresh ha

theorem run_ledger_invariant (R : Runtime) (s : State) (trace : List (Env × Request))
    (hlen : s.orders.length = s.idempotencyKeys.length) (hnodup : s.idempotencyKeys.Nodup) :
    (run R s trace).orders.length = (run R s trace).idempotencyKeys.length ∧
      (run R s trace).idempotencyKeys.Nodup := by
  induction trace generalizing s with
  | nil => exact ⟨hlen, hnodup⟩
  | cons x t ih =>
    obtain ⟨env, req⟩ := x
    rw [run_cons]
    obtain ⟨h₁, h₂⟩ := step_ledger_invariant R s env req hlen hnodup
    exact ih _ h₁ h₂

/-- From a state that has not seen `k`: the key is in the final ledger exactly
when one request carrying it was answered 201. -/
theorem createdWithKey_of_unseen (R : Runtime) (k : String) (s : State)
    (trace : List (Env × Request)) (hfresh : k ∉ s.idempotencyKeys) :
    (k ∈ (run R s trace).idempotencyKeys → createdWithKey R k s trace = 1) ∧
    (k ∉ (run R s trace).idempotencyKeys → createdWithKey R k s trace = 0) := by
  induction trace generalizing s with
  | nil =>
    exact ⟨fun h => absurd h hfresh, fun _ => rfl⟩
  | cons x t ih =>
    obtain ⟨env, req⟩ := x
    rw [run_cons]
    by_cases hhead : carriesKey k req ∧ (step R s env req).1.status = 201
    · obtain ⟨user, key, _, _, hkey, _, _, _, _, heq⟩ :=
        step_order_created R s env req hhead.1.1 hhead.2
      rw [hhead.1.2] at hkey
      cases hkey
      have hin : k ∈ (step R s env req).2.idempotencyKeys := by rw [heq]; simp
      have hrest := createdWithKey_of_seen R k _ t hin
      have hfinal := run_keeps_key R _ t k hin
      constructor
      · intro _
        simp only [createdWithKey, if_pos hhead, hrest]
      · intro hnot
        exact absurd hfinal hnot
    · have hstill : k ∉ (step R s env req).2.idempotencyKeys := by
        rcases step_effect R s env req with h | ⟨_, _, _, p, h⟩ |
          ⟨hc, _, _, key, o, hcarries, _, h⟩
        · rw [h]; exact hfresh
        · rw [h]; exact hfresh
        · rw [h]
          simp only [List.mem_append, List.mem_singleton, not_or]
          refine ⟨hfresh, ?_⟩
          intro hk
          subst hk
          exact hhead ⟨hcarries, hc⟩
      obtain ⟨i₁, i₂⟩ := ih _ hstill
      constructor
      · intro hin
        simp only [createdWithKey, if_neg hhead, Nat.zero_add]
        exact i₁ hin
      · intro hnot
        simp only [createdWithKey, if_neg hhead, Nat.zero_add]
        exact i₂ hnot

/-- C18. In every state reached from the empty state by any sequence of
requests, the number of stored orders equals the number of keys in the ledger
(which holds no key twice); a key is in the ledger exactly when one request of
the sequence carrying it was answered 201, and for a key outside the ledger no
request carrying it was. -/
theorem ledger_matches_orders (R : Runtime) (trace : List (Env × Request)) :
    (run R State.init trace).orders.length = (run R State.init trace).idempotencyKeys.length ∧
    (run R State.init trace).idempotencyKeys.Nodup ∧
    (∀ k, k ∈ (run R State.init trace).idempotencyKeys ↔
      createdWithKey R k State.init trace = 1) ∧
    (∀ k, k ∉ (run R State.init trace).idempotencyKeys ↔
      createdWithKey R k State.init trace = 0) := by
  have hinv := run_ledger_invariant R State.init trace rfl List.nodup_nil
  have hkeys : ∀ k,
      (k ∈ (run R State.init trace).idempotencyKeys → createdWithKey R k State.init trace = 1) ∧
      (k ∉ (run R State.init trace).idempotencyKeys → createdWithKey R k State.init trace = 0) :=
    fun k => createdWithKey_of_unseen R k State.init trace (by simp [State.init])
  refine ⟨hinv.1, hinv.2, ?_, ?_⟩
  · intro k
    constructor
    · exact (hkeys k).1
    · intro hone
      by_contra hnot
      have hzero := (hkeys k).2 hnot
      omega
  · intro k
    constructor
    · exact (hkeys k).2
    · intro hzero hin
      have hone := (hkeys k).1 hin
      omega

end EcomApi
